import Mathlib

/-!
# example-operator: the Nginx reconciler

A shallow embedding of `internal/controller/nginx_controller.go`
(`NginxReconciler.Reconcile` and `reconcileDeployment`) together with the API
types of `apis/example/v1alpha1/nginx_types.go`.

The Kubernetes API types are restricted to the fields the controller reads or
writes; every struct that has further fields in Kubernetes carries them in one
component `Others` (empty in the shape the controller builds).  Field names are
the Go names.

The cluster client (`client.Client`) is an in-memory store keyed by
namespace and name.  It stores objects verbatim, answers a read of a missing
key with a NotFound error, and can be told to fail any of its five operations
with a given error (`Faults`); a failing operation changes nothing.  Every
successful write is appended to a log.
-/

set_option linter.dupNamespace false

namespace ExampleOperator

/-! ## Errors -/

/-- Go error values: an API status error with its reason, any other error, or
an error wrapped by `fmt.Errorf("<context>: %w", cause)`. -/
inductive GoError where
  | status (reason : String) (message : String)
  | other (message : String)
  | wrap (context : String) (cause : GoError)
  deriving DecidableEq, Repr

/-- The text of `err.Error()`. -/
def GoError.Error : GoError → String
  | .status _ m => m
  | .other m => m
  | .wrap ctx cause => ctx ++ ": " ++ cause.Error

/-- Reason of the first API status error on the unwrap chain
(`errors.ReasonForError`); the empty string is `StatusReasonUnknown`. -/
def ReasonForError : GoError → String
  | .status r _ => r
  | .other _ => ""
  | .wrap _ cause => ReasonForError cause

/-- Constant `metav1.StatusReasonNotFound`. -/
def StatusReasonNotFound : String := "NotFound"

/-- Constant `metav1.StatusReasonAlreadyExists`. -/
def StatusReasonAlreadyExists : String := "AlreadyExists"

/-- Go `errors.IsNotFound`. -/
def IsNotFound (err : GoError) : Bool :=
  ReasonForError err == StatusReasonNotFound

/-- Go `client.IgnoreNotFound`: nil for a NotFound error, the error itself
otherwise. -/
def IgnoreNotFound (err : GoError) : Option GoError :=
  if IsNotFound err then none else some err

/-- Go `fmt.Errorf(context + ": %w", err)`. -/
def Errorf (context : String) (err : GoError) : GoError :=
  .wrap context err

/-! ## API types -/

/-- Go `map[string]string`, as an association list read with `List.lookup`. -/
abbrev StringMap := List (String × String)

/-- Go `metav1.Time`; zero is the zero time. -/
abbrev Time := Nat

/-- Go `types.NamespacedName`. -/
structure NamespacedName where
  Namespace : String
  Name : String
  deriving DecidableEq, Repr

/-- Go `metav1.OwnerReference`. -/
structure OwnerReference where
  APIVersion : String
  Kind : String
  Name : String
  UID : String
  Controller : Option Bool
  BlockOwnerDeletion : Option Bool
  deriving DecidableEq, Repr, Inhabited

/-- Go `metav1.ObjectMeta`. -/
structure ObjectMeta where
  Name : String
  Namespace : String
  UID : String
  Generation : Int
  Labels : StringMap
  OwnerReferences : List OwnerReference
  deriving DecidableEq, Repr, Inhabited

/-- Go `corev1.ContainerPort`. -/
structure ContainerPort where
  Name : String
  ContainerPort : Int
  Others : String
  deriving DecidableEq, Repr, Inhabited

/-- Go `corev1.Container`. -/
structure Container where
  Name : String
  Image : String
  Ports : List ContainerPort
  Others : String
  deriving DecidableEq, Repr, Inhabited

/-- Go `corev1.PodSpec`. -/
structure PodSpec where
  Containers : List Container
  Others : String
  deriving DecidableEq, Repr, Inhabited

/-- Go `corev1.PodTemplateSpec`; `Labels` is `ObjectMeta.Labels`. -/
structure PodTemplateSpec where
  Labels : StringMap
  Spec : PodSpec
  deriving DecidableEq, Repr, Inhabited

/-- Go `metav1.LabelSelector`. -/
structure LabelSelector where
  MatchLabels : StringMap
  Others : String
  deriving DecidableEq, Repr, Inhabited

/-- Go `appsv1.DeploymentSpec`; `Replicas` and `Selector` are pointers. -/
structure DeploymentSpec where
  Replicas : Option Int
  Selector : Option LabelSelector
  Template : PodTemplateSpec
  Others : String
  deriving DecidableEq, Repr, Inhabited

/-- Go `appsv1.DeploymentCondition`; `CondType` is the Go field `Type`. -/
structure DeploymentCondition where
  CondType : String
  Status : String
  deriving DecidableEq, Repr, Inhabited

/-- Go `appsv1.DeploymentStatus`. -/
structure DeploymentStatus where
  ObservedGeneration : Int
  Conditions : List DeploymentCondition
  deriving DecidableEq, Repr, Inhabited

/-- Go `appsv1.Deployment`. -/
structure Deployment where
  ObjectMeta : ObjectMeta
  Spec : DeploymentSpec
  Status : DeploymentStatus
  deriving DecidableEq, Repr, Inhabited

/-- Go `metav1.Condition`; `CondType` is the Go field `Type`. -/
structure Condition where
  CondType : String
  Status : String
  ObservedGeneration : Int
  LastTransitionTime : Time
  Reason : String
  Message : String
  deriving DecidableEq, Repr, Inhabited

/-- Go `NginxSpec`.  `ReconcileDelay` is the duration that `Reconcile` sleeps for
before the status update; it is read by the controller and has no effect on the
store. -/
structure NginxSpec where
  Version : String
  ReconcileDelay : Nat
  deriving DecidableEq, Repr, Inhabited

/-- Go `NginxStatus`. -/
structure NginxStatus where
  ObservedGeneration : Int
  Conditions : List Condition
  Phase : String
  deriving DecidableEq, Repr, Inhabited

/-- Go `Nginx`. -/
structure Nginx where
  ObjectMeta : ObjectMeta
  Spec : NginxSpec
  Status : NginxStatus
  deriving DecidableEq, Repr, Inhabited

/-- Constant `NginxAvailable`. -/
def NginxAvailable : String := "Available"

/-- Constant `NginxPhasePending`. -/
def NginxPhasePending : String := "Pending"

/-- Constant `NginxPhaseReady`. -/
def NginxPhaseReady : String := "Ready"

/-- Constant `NginxPhaseNotReady`. -/
def NginxPhaseNotReady : String := "NotReady"

/-- Constant `appsv1.DeploymentAvailable`. -/
def DeploymentAvailable : String := "Available"

/-- Constant `ConditionTrue` (of `corev1` and `metav1`). -/
def ConditionTrue : String := "True"

/-- Constant `metav1.ConditionFalse`. -/
def ConditionFalse : String := "False"

/-- Go `ctrl.Result`. -/
structure Result where
  Requeue : Bool
  RequeueAfter : Nat
  deriving DecidableEq, Repr, Inhabited

/-! ## Semantic equality of Deployment specs -/

/-- Equality of two Go maps: the same keys with the same values (a nil map and
an empty map are equal). -/
def mapDeepEqual (a b : StringMap) : Bool :=
  a.all (fun p => b.lookup p.1 == a.lookup p.1) &&
  b.all (fun p => a.lookup p.1 == b.lookup p.1)

/-- Semantic equality of two label selector pointers. -/
def selectorDeepEqual : Option LabelSelector → Option LabelSelector → Bool
  | none, none => true
  | some a, some b => mapDeepEqual a.MatchLabels b.MatchLabels && a.Others == b.Others
  | _, _ => false

/-- Go `equality.Semantic.DeepEqual` on two `DeploymentSpec` values: field by
field, maps compared as maps. -/
def DeepEqual (a b : DeploymentSpec) : Bool :=
  a.Replicas == b.Replicas &&
  selectorDeepEqual a.Selector b.Selector &&
  mapDeepEqual a.Template.Labels b.Template.Labels &&
  a.Template.Spec == b.Template.Spec &&
  a.Others == b.Others

/-! ## The cluster client -/

/-- Errors the client is told to return, per operation. -/
structure Faults where
  GetNginx : Option GoError
  GetDeployment : Option GoError
  Create : Option GoError
  Update : Option GoError
  StatusUpdate : Option GoError
  deriving DecidableEq, Repr, Inhabited

/-- A successful write to the store. -/
inductive Write where
  | create (obj : Deployment)
  | update (obj : Deployment)
  | statusUpdate (obj : Nginx)
  deriving DecidableEq, Repr

/-- Whether a write is a write to a child Deployment. -/
def Write.isChild : Write → Bool
  | .create _ => true
  | .update _ => true
  | .statusUpdate _ => false

/-- Key of an object. -/
def ObjectMeta.key (m : ObjectMeta) : NamespacedName :=
  { Namespace := m.Namespace, Name := m.Name }

/-- State of the store behind `client.Client`: the stored objects, each under
the namespace and name of its metadata, the faults, and the log of writes. -/
structure Cluster where
  nginxes : List Nginx
  deployments : List Deployment
  faults : Faults
  log : List Write
  deriving DecidableEq, Repr

/-- The stored Nginx object with the given key. -/
def Cluster.findNginx (c : Cluster) (key : NamespacedName) : Option Nginx :=
  c.nginxes.find? (fun x => x.ObjectMeta.key == key)

/-- The stored Deployment with the given key. -/
def Cluster.findDeployment (c : Cluster) (key : NamespacedName) : Option Deployment :=
  c.deployments.find? (fun x => x.ObjectMeta.key == key)

/-- Client `Get` of an Nginx object. -/
def Cluster.GetNginx (c : Cluster) (key : NamespacedName) : Except GoError Nginx :=
  match c.faults.GetNginx with
  | some err => .error err
  | none =>
    match c.findNginx key with
    | some obj => .ok obj
    | none => .error (.status StatusReasonNotFound "not found")

/-- Client `Get` of a Deployment. -/
def Cluster.GetDeployment (c : Cluster) (key : NamespacedName) : Except GoError Deployment :=
  match c.faults.GetDeployment with
  | some err => .error err
  | none =>
    match c.findDeployment key with
    | some obj => .ok obj
    | none => .error (.status StatusReasonNotFound "not found")

/-- Client `Create` of a Deployment. -/
def Cluster.Create (c : Cluster) (obj : Deployment) : Option GoError × Cluster :=
  match c.faults.Create with
  | some err => (some err, c)
  | none =>
    match c.findDeployment obj.ObjectMeta.key with
    | some _ => (some (.status StatusReasonAlreadyExists "already exists"), c)
    | none =>
      (none, { c with deployments := c.deployments ++ [obj],
                      log := c.log ++ [.create obj] })

/-- Client `Update` of a Deployment: the stored object of that key is replaced. -/
def Cluster.Update (c : Cluster) (obj : Deployment) : Option GoError × Cluster :=
  match c.faults.Update with
  | some err => (some err, c)
  | none =>
    match c.findDeployment obj.ObjectMeta.key with
    | none => (some (.status StatusReasonNotFound "not found"), c)
    | some _ =>
      (none, { c with deployments :=
                        c.deployments.map
                          (fun x => if x.ObjectMeta.key == obj.ObjectMeta.key then obj else x),
                      log := c.log ++ [.update obj] })

/-- Client `Status().Update` of an Nginx object: only the status of the stored
object is replaced. -/
def Cluster.StatusUpdate (c : Cluster) (obj : Nginx) : Option GoError × Cluster :=
  match c.faults.StatusUpdate with
  | some err => (some err, c)
  | none =>
    match c.findNginx obj.ObjectMeta.key with
    | none => (some (.status StatusReasonNotFound "not found"), c)
    | some _ =>
      (none, { c with nginxes :=
                        c.nginxes.map
                          (fun x => if x.ObjectMeta.key == obj.ObjectMeta.key then
                                      { x with Status := obj.Status }
                                    else x),
                      log := c.log ++ [.statusUpdate obj] })

/-! ## Library calls used by the reconciler -/

/-- Go `runtime.Scheme`, as far as the controller uses it: the API version and
kind registered for the Nginx type, if it is registered. -/
structure Scheme where
  NginxKind : Option (String × String)
  deriving DecidableEq, Repr, Inhabited

/-- Owner validation of `controllerutil.SetControllerReference`: a namespaced
owner needs a namespaced object in the same namespace. -/
def validateOwner (owner object : ObjectMeta) : Option GoError :=
  if owner.Namespace != "" then
    if object.Namespace == "" then
      some (.other "cluster-scoped resource must not have a namespace-scoped owner")
    else if owner.Namespace != object.Namespace then
      some (.other "cross-namespace owner references are disallowed")
    else none
  else none

/-- Go `controllerutil.SetControllerReference(owner, controlled, scheme)`: the
error, and the controlled object with the controller reference added.  The
controlled object is the freshly built Deployment, whose owner reference list
is empty, so the reference is appended. -/
def SetControllerReference (owner : Nginx) (controlled : Deployment) (scheme : Scheme) :
    Option GoError × Deployment :=
  match validateOwner owner.ObjectMeta controlled.ObjectMeta with
  | some err => (some err, controlled)
  | none =>
    match scheme.NginxKind with
    | none => (some (.other "no kind is registered for the type v1alpha1.Nginx"), controlled)
    | some gvk =>
      let ref : OwnerReference :=
        { APIVersion := gvk.1, Kind := gvk.2, Name := owner.ObjectMeta.Name,
          UID := owner.ObjectMeta.UID, Controller := some true,
          BlockOwnerDeletion := some true }
      (none, { controlled with
        ObjectMeta := { controlled.ObjectMeta with
          OwnerReferences := controlled.ObjectMeta.OwnerReferences ++ [ref] } })

/-- Go `meta.FindStatusCondition`: the first condition of the given type. -/
def FindStatusCondition (conditions : List Condition) (conditionType : String) :
    Option Condition :=
  conditions.find? (fun c => c.CondType == conditionType)

/-- The update `meta.SetStatusCondition` makes to the existing condition. -/
def mergeCondition (now : Time) (existingCondition newCondition : Condition) : Condition :=
  let existingCondition :=
    if existingCondition.Status != newCondition.Status then
      { existingCondition with
        Status := newCondition.Status,
        LastTransitionTime :=
          if newCondition.LastTransitionTime != 0 then newCondition.LastTransitionTime
          else now }
    else existingCondition
  { existingCondition with
    Reason := newCondition.Reason,
    Message := newCondition.Message,
    ObservedGeneration := newCondition.ObservedGeneration }

/-- In-place update of the first condition that has the type of the new one. -/
def setExisting (now : Time) (newCondition : Condition) : List Condition → List Condition
  | [] => []
  | c :: cs =>
    if c.CondType == newCondition.CondType then mergeCondition now c newCondition :: cs
    else c :: setExisting now newCondition cs

/-- Go `meta.SetStatusCondition`; `now` is the value of `time.Now()`. -/
def SetStatusCondition (now : Time) (conditions : List Condition) (newCondition : Condition) :
    List Condition :=
  match FindStatusCondition conditions newCondition.CondType with
  | none =>
    conditions ++
      [if newCondition.LastTransitionTime == 0 then
         { newCondition with LastTransitionTime := now }
       else newCondition]
  | some _ => setExisting now newCondition conditions

/-! ## The controller -/

/-- Lines 155-157 of `reconcileDeployment`: a replica count set on the current
Deployment is copied into the desired one. -/
def keepReplicas (currentDeployment desiredDeployment : Deployment) : Deployment :=
  if currentDeployment.Spec.Replicas != none then
    { desiredDeployment with
      Spec := { desiredDeployment.Spec with Replicas := currentDeployment.Spec.Replicas } }
  else desiredDeployment

/-- Go `reconcileDeployment`: the returned pointer, the error, and the store
afterwards. -/
def reconcileDeployment (c : Cluster) (desiredDeployment : Deployment) :
    (Option Deployment × Option GoError) × Cluster :=
  let name : NamespacedName :=
    { Name := desiredDeployment.ObjectMeta.Name,
      Namespace := desiredDeployment.ObjectMeta.Namespace }
  -- Lookup current version of the object
  let fetched : Deployment × Option GoError :=
    match c.GetDeployment name with
    | .ok obj => (obj, none)
    | .error e => (default, some e)
  let currentDeployment := fetched.1
  let err := fetched.2
  if err.any (fun e => !IsNotFound e) then
    -- unexpected error
    ((none, err.map (Errorf "getting Deployment")), c)
  else
    -- Keep the replicas
    let desiredDeployment := keepReplicas currentDeployment desiredDeployment
    if err.any IsNotFound then
      -- Deployment needs to be created
      match c.Create desiredDeployment with
      | (some err, c1) => ((none, some (Errorf "creating Deployment" err)), c1)
      | (none, c1) => ((some desiredDeployment, none), c1)
    else if !DeepEqual desiredDeployment.Spec currentDeployment.Spec then
      -- desired and current Deployment .Spec are not equal -> trigger an update
      let currentDeployment := { currentDeployment with Spec := desiredDeployment.Spec }
      match c.Update currentDeployment with
      | (some err, c1) => ((none, some (Errorf "updating Deployment" err)), c1)
      | (none, c1) => ((some currentDeployment, none), c1)
    else
      ((some currentDeployment, none), c)

/-- The local `labels` of `Reconcile`. -/
def labels (nginx : Nginx) : StringMap :=
  [ ("app.kubernetes.io/name", "nginx"),
    ("app.kubernetes.io/version", nginx.Spec.Version),
    ("app.kubernetes.io/managed-by", "nginx-operator") ]

/-- The local `deploy` of `Reconcile`, before the owner reference is set. -/
def deploy (nginx : Nginx) : Deployment :=
  { ObjectMeta :=
      { Name := "nginx-" ++ nginx.ObjectMeta.Name,
        Namespace := nginx.ObjectMeta.Namespace,
        UID := "",
        Generation := 0,
        Labels := labels nginx,
        OwnerReferences := [] },
    Spec :=
      { Replicas := none,
        Selector := some { MatchLabels := labels nginx, Others := "" },
        Template :=
          { Labels := labels nginx,
            Spec :=
              { Containers :=
                  [ { Name := "nginx",
                      Image := "nginx:" ++ nginx.Spec.Version,
                      Ports := [ { Name := "http", ContainerPort := 80, Others := "" } ],
                      Others := "" } ],
                Others := "" } },
        Others := "" },
    Status := { ObservedGeneration := 0, Conditions := [] } }

/-- Lines 97-104 of `Reconcile`: whether the Deployment has a condition of type
Available with status True. -/
def available (currentDeploy : Deployment) : Bool :=
  currentDeploy.Status.Conditions.any
    (fun c => c.CondType == DeploymentAvailable && c.Status == ConditionTrue)

/-- Lines 106-125 of `Reconcile`: the Nginx object with its status derived from
the availability of the child.  `now` is the clock read by
`meta.SetStatusCondition`. -/
def withStatus (now : Time) (nginx : Nginx) (available : Bool) : Nginx :=
  let nginx : Nginx :=
    if available then
      { nginx with
        Status := { nginx.Status with
          Conditions := SetStatusCondition now nginx.Status.Conditions
            { CondType := NginxAvailable,
              Status := ConditionTrue,
              Reason := "Setup",
              Message := "Nginx is up and running.",
              ObservedGeneration := nginx.ObjectMeta.Generation,
              LastTransitionTime := 0 },
          Phase := NginxPhaseReady } }
    else
      { nginx with
        Status := { nginx.Status with
          Conditions := SetStatusCondition now nginx.Status.Conditions
            { CondType := NginxAvailable,
              Status := ConditionFalse,
              Reason := "NotAvailable",
              Message := "Nginx deployment is not available.",
              ObservedGeneration := nginx.ObjectMeta.Generation,
              LastTransitionTime := 0 },
          Phase := NginxPhaseNotReady } }
  { nginx with
    Status := { nginx.Status with ObservedGeneration := nginx.ObjectMeta.Generation } }

/-- Go `NginxReconciler.Reconcile`: the result, the error, and the store
afterwards.  `now` is the clock read by `meta.SetStatusCondition`. -/
def Reconcile (scheme : Scheme) (now : Time) (c : Cluster) (req : NamespacedName) :
    (Result × Option GoError) × Cluster :=
  match c.GetNginx req with
  | .error err => (({ Requeue := false, RequeueAfter := 0 }, IgnoreNotFound err), c)
  | .ok nginx =>
    match SetControllerReference nginx (deploy nginx) scheme with
    | (some err, _) =>
      (({ Requeue := false, RequeueAfter := 0 }, some (Errorf "setting ownerref" err)), c)
    | (none, deploy) =>
      match reconcileDeployment c deploy with
      | ((_, some err), c1) =>
        (({ Requeue := false, RequeueAfter := 0 }, some (Errorf "reconciling deployment" err)), c1)
      -- not taken: `reconcileDeployment` returns a Deployment whenever the error is nil
      | ((none, none), c1) => (({ Requeue := false, RequeueAfter := 0 }, none), c1)
      | ((some currentDeploy, none), c1) =>
        if currentDeploy.Status.ObservedGeneration != currentDeploy.ObjectMeta.Generation then
          -- we don't know whats up - status needs to catch up
          (({ Requeue := false, RequeueAfter := 0 }, none), c1)
        else
          let nginx := withStatus now nginx (available currentDeploy)
          -- time.Sleep(nginx.Spec.ReconcileDelay.Duration) changes no state
          let res := c1.StatusUpdate nginx
          (({ Requeue := false, RequeueAfter := 0 }, res.1), res.2)

/-! ## Worked example -/

/-- No operation is told to fail. -/
def noFaults : Faults :=
  { GetNginx := none, GetDeployment := none, Create := none, Update := none,
    StatusUpdate := none }

/-- A store without faults that holds the given Nginx objects and Deployments. -/
def Cluster.ofObjects (ns : List Nginx) (ds : List Deployment) : Cluster :=
  { nginxes := ns,
    deployments := ds,
    faults := noFaults,
    log := [] }

/-- The Nginx object `web` of the given version in namespace `default`. -/
def webNginx (version : String) : Nginx :=
  { ObjectMeta := { Name := "web", Namespace := "default", UID := "uid-web", Generation := 1,
                    Labels := [], OwnerReferences := [] },
    Spec := { Version := version, ReconcileDelay := 0 },
    Status := { ObservedGeneration := 0, Conditions := [], Phase := NginxPhasePending } }

/-- The scheme of the manager: the Nginx type is registered. -/
def managerScheme : Scheme :=
  { NginxKind := some ("example.thetechnick.ninja/v1alpha1", "Nginx") }

/-- Key of the Nginx object `web`. -/
def webKey : NamespacedName := { Namespace := "default", Name := "web" }

/-- Key of the child of `web`. -/
def webChildKey : NamespacedName := { Namespace := "default", Name := "nginx-web" }

/-- The child Deployment that `Reconcile` builds for `webNginx version`, owner
reference included. -/
def webChild (version : String) : Deployment :=
  (SetControllerReference (webNginx version) (deploy (webNginx version)) managerScheme).2

/-- The child of `web` with an explicit replica count. -/
def scaledChild (version : String) (replicas : Int) : Deployment :=
  { webChild version with
    Spec := { (webChild version).Spec with Replicas := some replicas } }

/-- A store like `c` whose operations fail as told by `f`. -/
def Cluster.withFaults (c : Cluster) (f : Faults) : Cluster :=
  { c with faults := f }

/-- The error used in the examples of failing operations. -/
def boom : GoError := .other "connection refused"

/-- The child of `web` whose status has not caught up with its generation. -/
def laggingChild (version : String) : Deployment :=
  { webChild version with
    ObjectMeta := { (webChild version).ObjectMeta with Generation := 2 },
    Status := { ObservedGeneration := 1, Conditions := [] } }

/-- The child of `web` that reports the Available condition as True. -/
def readyChild (version : String) : Deployment :=
  { webChild version with
    Status := { ObservedGeneration := 0,
                Conditions := [{ CondType := DeploymentAvailable, Status := ConditionTrue }] } }

/-! ## Basic facts -/

theorem mapDeepEqual_refl (a : StringMap) : mapDeepEqual a a = true := by
  simp [mapDeepEqual]

theorem selectorDeepEqual_refl (a : Option LabelSelector) : selectorDeepEqual a a = true := by
  cases a <;> simp [selectorDeepEqual, mapDeepEqual_refl]

theorem DeepEqual_refl (a : DeploymentSpec) : DeepEqual a a = true := by
  simp [DeepEqual, selectorDeepEqual_refl, mapDeepEqual_refl]

theorem find_key {α : Type} (key : α → NamespacedName) (k : NamespacedName) (xs : List α)
    (x : α) (h : xs.find? (fun y => key y == k) = some x) : key x = k := by
  have hx := List.find?_some h
  simpa using hx

theorem find_append_new {α : Type} (key : α → NamespacedName) (xs : List α) (v : α)
    (h : xs.find? (fun y => key y == key v) = none) :
    (xs ++ [v]).find? (fun y => key y == key v) = some v := by
  simp [List.find?_append, h]

theorem find_map_replace {α : Type} (key : α → NamespacedName) (f : α → α)
    (k : NamespacedName) (hf : ∀ x, key x = k → key (f x) = k) (xs : List α) :
    (xs.map (fun x => if key x == k then f x else x)).find? (fun y => key y == k)
      = (xs.find? (fun y => key y == k)).map f := by
  induction xs with
  | nil => simp
  | cons x xs ih =>
    by_cases hx : key x = k
    · have hfx := hf x hx
      simp [hx, hfx]
    · have hb : (key x == k) = false := by simpa using hx
      simp only [List.map_cons, List.find?_cons, hb, Bool.false_eq_true, if_false]
      exact ih

theorem Cluster.findDeployment_key {c : Cluster} {k : NamespacedName} {d : Deployment}
    (h : c.findDeployment k = some d) : d.ObjectMeta.key = k :=
  find_key (fun x : Deployment => x.ObjectMeta.key) k c.deployments d h

theorem Cluster.findNginx_key {c : Cluster} {k : NamespacedName} {n : Nginx}
    (h : c.findNginx k = some n) : n.ObjectMeta.key = k :=
  find_key (fun x : Nginx => x.ObjectMeta.key) k c.nginxes n h

theorem keepReplicas_default (D : Deployment) : keepReplicas default D = D := by
  rfl

theorem keepReplicas_meta (cur D : Deployment) :
    (keepReplicas cur D).ObjectMeta = D.ObjectMeta := by
  unfold keepReplicas
  split <;> rfl

theorem keepReplicas_of_same (cur D : Deployment)
    (h : cur.Spec.Replicas = D.Spec.Replicas) : keepReplicas cur D = D := by
  unfold keepReplicas
  split
  · rw [h]
  · rfl

/-! ## The three paths of `reconcileDeployment` -/

theorem reconcileDeployment_fetch_error (c : Cluster) (D : Deployment) (e : GoError)
    (hget : c.GetDeployment D.ObjectMeta.key = .error e) (hnf : IsNotFound e = false) :
    reconcileDeployment c D = ((none, some (Errorf "getting Deployment" e)), c) := by
  simp only [ObjectMeta.key] at hget
  simp [reconcileDeployment, hget, hnf]

theorem reconcileDeployment_absent (c : Cluster) (D : Deployment) (e : GoError)
    (hget : c.GetDeployment D.ObjectMeta.key = .error e) (hnf : IsNotFound e = true) :
    reconcileDeployment c D =
      match c.Create D with
      | (some err, c1) => ((none, some (Errorf "creating Deployment" err)), c1)
      | (none, c1) => ((some D, none), c1) := by
  simp only [ObjectMeta.key] at hget
  simp [reconcileDeployment, hget, hnf, keepReplicas_default]

theorem reconcileDeployment_found (c : Cluster) (D cur : Deployment)
    (hget : c.GetDeployment D.ObjectMeta.key = .ok cur) :
    reconcileDeployment c D =
      if DeepEqual (keepReplicas cur D).Spec cur.Spec then ((some cur, none), c)
      else
        match c.Update { cur with Spec := (keepReplicas cur D).Spec } with
        | (some err, c1) => ((none, some (Errorf "updating Deployment" err)), c1)
        | (none, c1) => ((some { cur with Spec := (keepReplicas cur D).Spec }, none), c1) := by
  simp only [ObjectMeta.key] at hget
  simp only [reconcileDeployment, hget]
  by_cases h : DeepEqual (keepReplicas cur D).Spec cur.Spec = true
  · simp [h]
  · simp [h]

/-! ## Facts about the store operations -/

theorem Cluster.GetDeployment_no_fault (c : Cluster) (k : NamespacedName)
    (h : c.faults.GetDeployment = none) :
    c.GetDeployment k =
      match c.findDeployment k with
      | some obj => .ok obj
      | none => .error (.status StatusReasonNotFound "not found") := by
  simp [Cluster.GetDeployment, h]

theorem Cluster.GetDeployment_ok_key {c : Cluster} {k : NamespacedName} {d : Deployment}
    (h : c.GetDeployment k = .ok d) : d.ObjectMeta.key = k ∧ c.findDeployment k = some d := by
  unfold Cluster.GetDeployment at h
  split at h
  · simp at h
  · split at h
    · rename_i obj hfind
      have hd : obj = d := by simpa using h
      subst hd
      exact ⟨Cluster.findDeployment_key hfind, hfind⟩
    · simp at h

theorem Cluster.GetNginx_ok_key {c : Cluster} {k : NamespacedName} {n : Nginx}
    (h : c.GetNginx k = .ok n) :
    n.ObjectMeta.key = k ∧ c.findNginx k = some n ∧ c.faults.GetNginx = none := by
  unfold Cluster.GetNginx at h
  split at h
  · simp at h
  · rename_i hfault
    split at h
    · rename_i obj hfind
      have hd : obj = n := by simpa using h
      subst hd
      exact ⟨Cluster.findNginx_key hfind, hfind, hfault⟩
    · simp at h

theorem Cluster.Create_error {c : Cluster} {obj : Deployment} {e : GoError} {c1 : Cluster}
    (h : c.Create obj = (some e, c1)) : c1 = c := by
  unfold Cluster.Create at h
  split at h
  · simp at h
    exact h.2.symm
  · split at h
    · simp at h
      exact h.2.symm
    · simp at h

theorem Cluster.Create_ok {c : Cluster} {obj : Deployment} {c1 : Cluster}
    (h : c.Create obj = (none, c1)) :
    c.findDeployment obj.ObjectMeta.key = none ∧
    c1 = { c with deployments := c.deployments ++ [obj], log := c.log ++ [.create obj] } := by
  unfold Cluster.Create at h
  split at h
  · simp at h
  · split at h
    · simp at h
    · rename_i hfind
      simp at h
      exact ⟨hfind, h.symm⟩

theorem Cluster.Update_error {c : Cluster} {obj : Deployment} {e : GoError} {c1 : Cluster}
    (h : c.Update obj = (some e, c1)) : c1 = c := by
  unfold Cluster.Update at h
  split at h
  · simp at h
    exact h.2.symm
  · split at h
    · simp at h
      exact h.2.symm
    · simp at h

theorem Cluster.Update_ok {c : Cluster} {obj : Deployment} {c1 : Cluster}
    (h : c.Update obj = (none, c1)) :
    (c.findDeployment obj.ObjectMeta.key).isSome = true ∧
    c1 = { c with
           deployments :=
             c.deployments.map
               (fun x => if x.ObjectMeta.key == obj.ObjectMeta.key then obj else x),
           log := c.log ++ [.update obj] } := by
  unfold Cluster.Update at h
  split at h
  · simp at h
  · split at h
    · simp at h
    · rename_i hfind
      simp only [Prod.mk.injEq, true_and] at h
      exact ⟨by simp [hfind], h.symm⟩

theorem Cluster.StatusUpdate_error {c : Cluster} {obj : Nginx} {e : GoError} {c1 : Cluster}
    (h : c.StatusUpdate obj = (some e, c1)) : c1 = c := by
  unfold Cluster.StatusUpdate at h
  split at h
  · simp at h
    exact h.2.symm
  · split at h
    · simp at h
      exact h.2.symm
    · simp at h

theorem Cluster.StatusUpdate_ok {c : Cluster} {obj : Nginx} {c1 : Cluster}
    (h : c.StatusUpdate obj = (none, c1)) :
    (c.findNginx obj.ObjectMeta.key).isSome = true ∧
    c.faults.StatusUpdate = none ∧
    c1 = { c with
           nginxes :=
             c.nginxes.map
               (fun x => if x.ObjectMeta.key == obj.ObjectMeta.key then
                           { x with Status := obj.Status }
                         else x),
           log := c.log ++ [.statusUpdate obj] } := by
  unfold Cluster.StatusUpdate at h
  split at h
  · simp at h
  · rename_i hfault
    split at h
    · simp at h
    · rename_i hfind
      simp only [Prod.mk.injEq, true_and] at h
      exact ⟨by simp [hfind], hfault, h.symm⟩

theorem Cluster.findDeployment_after_create (c : Cluster) (obj : Deployment) (l : List Write)
    (h : c.findDeployment obj.ObjectMeta.key = none) :
    ({ c with deployments := c.deployments ++ [obj], log := l } : Cluster).findDeployment
      obj.ObjectMeta.key = some obj :=
  find_append_new (fun x : Deployment => x.ObjectMeta.key) c.deployments obj h

theorem Cluster.findDeployment_after_update (c : Cluster) (obj : Deployment) (l : List Write)
    (h : (c.findDeployment obj.ObjectMeta.key).isSome = true) :
    ({ c with
       deployments :=
         c.deployments.map (fun x => if x.ObjectMeta.key == obj.ObjectMeta.key then obj else x),
       log := l } : Cluster).findDeployment obj.ObjectMeta.key = some obj := by
  have hrep := find_map_replace (fun x : Deployment => x.ObjectMeta.key) (fun _ => obj)
    obj.ObjectMeta.key (fun _ _ => rfl) c.deployments
  obtain ⟨d, hd⟩ := Option.isSome_iff_exists.mp h
  unfold Cluster.findDeployment at hd ⊢
  simp only at hrep ⊢
  rw [hrep, hd]
  rfl

theorem Cluster.findNginx_after_statusUpdate (c : Cluster) (obj stored : Nginx) (l : List Write)
    (h : c.findNginx obj.ObjectMeta.key = some stored) :
    ({ c with
       nginxes :=
         c.nginxes.map
           (fun x => if x.ObjectMeta.key == obj.ObjectMeta.key then
                       { x with Status := obj.Status }
                     else x),
       log := l } : Cluster).findNginx obj.ObjectMeta.key
      = some { stored with Status := obj.Status } := by
  have hrep := find_map_replace (fun x : Nginx => x.ObjectMeta.key)
    (fun x => { x with Status := obj.Status }) obj.ObjectMeta.key (fun _ hx => hx) c.nginxes
  unfold Cluster.findNginx at h ⊢
  simp only at hrep ⊢
  rw [hrep, h]
  rfl

theorem keepReplicas_again (cur D : Deployment) :
    keepReplicas { cur with Spec := (keepReplicas cur D).Spec } D = keepReplicas cur D := by
  unfold keepReplicas
  cases hr : cur.Spec.Replicas with
  | none =>
    simp only [bne_self_eq_false, Bool.false_eq_true, if_false]
    split <;> rfl
  | some r => simp

theorem reconcileDeployment_error_unchanged (c : Cluster) (D : Deployment) (e : GoError)
    (h : (reconcileDeployment c D).1.2 = some e) : (reconcileDeployment c D).2 = c := by
  cases hget : c.GetDeployment D.ObjectMeta.key with
  | error e0 =>
    cases hnf : IsNotFound e0 with
    | false => rw [reconcileDeployment_fetch_error c D e0 hget hnf]
    | true =>
      rw [reconcileDeployment_absent c D e0 hget hnf] at h ⊢
      cases hc : c.Create D with
      | mk oe c1 =>
        cases oe with
        | none => simp [hc] at h
        | some e1 => simpa [hc] using Cluster.Create_error hc
  | ok cur =>
    rw [reconcileDeployment_found c D cur hget] at h ⊢
    split
    · rfl
    · rename_i hne
      simp only [hne, if_false] at h
      cases hu : c.Update { cur with Spec := (keepReplicas cur D).Spec } with
      | mk oe c1 =>
        cases oe with
        | none => simp [hu] at h
        | some e1 => simpa [hu] using Cluster.Update_error hu

theorem reconcileDeployment_ok_some (c : Cluster) (D : Deployment)
    (h : (reconcileDeployment c D).1.2 = none) : (reconcileDeployment c D).1.1 ≠ none := by
  cases hget : c.GetDeployment D.ObjectMeta.key with
  | error e0 =>
    cases hnf : IsNotFound e0 with
    | false => simp [reconcileDeployment_fetch_error c D e0 hget hnf, Errorf] at h
    | true =>
      rw [reconcileDeployment_absent c D e0 hget hnf] at h ⊢
      cases hc : c.Create D with
      | mk oe c1 =>
        cases oe with
        | none => simp [hc]
        | some e1 => simp [hc] at h
  | ok cur =>
    rw [reconcileDeployment_found c D cur hget] at h ⊢
    split
    · simp
    · rename_i hne
      simp only [hne, if_false] at h
      cases hu : c.Update { cur with Spec := (keepReplicas cur D).Spec } with
      | mk oe c1 =>
        cases oe with
        | none => simp [hu]
        | some e1 => simp [hu] at h

theorem keepReplicas_spec (cur D : Deployment) :
    (keepReplicas cur D).Spec =
      if cur.Spec.Replicas != none then { D.Spec with Replicas := cur.Spec.Replicas }
      else D.Spec := by
  unfold keepReplicas
  split <;> rfl

theorem isNotFound_notFound (m : String) :
    IsNotFound (.status StatusReasonNotFound m) = true := by
  simp [IsNotFound, ReasonForError]

theorem reconcileDeployment_frame (c : Cluster) (D : Deployment) :
    (reconcileDeployment c D).2.nginxes = c.nginxes ∧
    (reconcileDeployment c D).2.faults = c.faults ∧
    ∃ ws : List Write, (reconcileDeployment c D).2.log = c.log ++ ws ∧
      ∀ w ∈ ws, w.isChild = true := by
  cases hget : c.GetDeployment D.ObjectMeta.key with
  | error e0 =>
    cases hnf : IsNotFound e0 with
    | false =>
      rw [reconcileDeployment_fetch_error c D e0 hget hnf]
      exact ⟨rfl, rfl, [], by simp, by simp⟩
    | true =>
      rw [reconcileDeployment_absent c D e0 hget hnf]
      cases hc : c.Create D with
      | mk oe c1 =>
        cases oe with
        | none =>
          obtain ⟨_, hc1⟩ := Cluster.Create_ok hc
          simp only
          rw [hc1]
          exact ⟨rfl, rfl, [.create D], rfl, by simp [Write.isChild]⟩
        | some e1 =>
          have hc1 := Cluster.Create_error hc
          simp only
          rw [hc1]
          exact ⟨rfl, rfl, [], by simp, by simp⟩
  | ok cur =>
    rw [reconcileDeployment_found c D cur hget]
    split
    · exact ⟨rfl, rfl, [], by simp, by simp⟩
    · cases hu : c.Update { cur with Spec := (keepReplicas cur D).Spec } with
      | mk oe c1 =>
        cases oe with
        | none =>
          obtain ⟨_, hc1⟩ := Cluster.Update_ok hu
          simp only
          rw [hc1]
          exact ⟨rfl, rfl, [.update { cur with Spec := (keepReplicas cur D).Spec }], rfl,
            by simp [Write.isChild]⟩
        | some e1 =>
          have hc1 := Cluster.Update_error hu
          simp only
          rw [hc1]
          exact ⟨rfl, rfl, [], by simp, by simp⟩

theorem reconcileDeployment_converged (c : Cluster) (D : Deployment)
    (hfetch : c.faults.GetDeployment = none)
    (hok : (reconcileDeployment c D).1.2 = none) :
    ∃ d1 : Deployment,
      (reconcileDeployment c D).1.1 = some d1 ∧
      (reconcileDeployment c D).2.findDeployment D.ObjectMeta.key = some d1 ∧
      DeepEqual (keepReplicas d1 D).Spec d1.Spec = true ∧
      ((c.findDeployment D.ObjectMeta.key = none ∧
          (reconcileDeployment c D).2.log = c.log ++ [.create d1]) ∨
       (c.findDeployment D.ObjectMeta.key ≠ none ∧
          ((reconcileDeployment c D).2.log = c.log ∨
           (reconcileDeployment c D).2.log = c.log ++ [.update d1]))) := by
  have hget := Cluster.GetDeployment_no_fault c D.ObjectMeta.key hfetch
  cases hfind : c.findDeployment D.ObjectMeta.key with
  | none =>
    simp only [hfind] at hget
    have hrd := reconcileDeployment_absent c D _ hget (isNotFound_notFound _)
    cases hc : c.Create D with
    | mk oe c1 =>
      cases oe with
      | some e1 =>
        rw [hrd, hc] at hok
        simp at hok
      | none =>
        rw [hc] at hrd
        simp only at hrd
        obtain ⟨_, hc1⟩ := Cluster.Create_ok hc
        have hf1 : c1.findDeployment D.ObjectMeta.key = some D := by
          rw [hc1]
          exact Cluster.findDeployment_after_create c D _ hfind
        have hde : DeepEqual (keepReplicas D D).Spec D.Spec = true := by
          rw [keepReplicas_of_same D D rfl]
          exact DeepEqual_refl _
        have hlog : c1.log = c.log ++ [.create D] := by rw [hc1]
        rw [hrd]
        exact ⟨D, rfl, hf1, hde, Or.inl ⟨rfl, hlog⟩⟩
  | some cur =>
    simp only [hfind] at hget
    have hkey : cur.ObjectMeta.key = D.ObjectMeta.key := Cluster.findDeployment_key hfind
    have hrd := reconcileDeployment_found c D cur hget
    by_cases hde : DeepEqual (keepReplicas cur D).Spec cur.Spec = true
    · rw [if_pos hde] at hrd
      rw [hrd]
      exact ⟨cur, rfl, hfind, hde, Or.inr ⟨by simp, Or.inl rfl⟩⟩
    · rw [if_neg hde] at hrd
      cases hu : c.Update { cur with Spec := (keepReplicas cur D).Spec } with
      | mk oe c1 =>
        cases oe with
        | some e1 =>
          rw [hrd, hu] at hok
          simp at hok
        | none =>
          rw [hu] at hrd
          simp only at hrd
          obtain ⟨hsome, hc1⟩ := Cluster.Update_ok hu
          have hf1 : c1.findDeployment D.ObjectMeta.key
              = some { cur with Spec := (keepReplicas cur D).Spec } := by
            rw [hc1, ← hkey]
            exact Cluster.findDeployment_after_update c
              { cur with Spec := (keepReplicas cur D).Spec } _ hsome
          have hsame : DeepEqual
              (keepReplicas { cur with Spec := (keepReplicas cur D).Spec } D).Spec
              ({ cur with Spec := (keepReplicas cur D).Spec } : Deployment).Spec = true := by
            rw [keepReplicas_again cur D]
            exact DeepEqual_refl _
          have hlog : c1.log
              = c.log ++ [.update { cur with Spec := (keepReplicas cur D).Spec }] := by
            rw [hc1]
          rw [hrd]
          exact ⟨_, rfl, hf1, hsame, Or.inr ⟨by simp, Or.inr hlog⟩⟩

theorem reconcileDeployment_again (c : Cluster) (D d1 : Deployment)
    (hfetch : c.faults.GetDeployment = none)
    (hfind : c.findDeployment D.ObjectMeta.key = some d1)
    (hde : DeepEqual (keepReplicas d1 D).Spec d1.Spec = true) :
    reconcileDeployment c D = ((some d1, none), c) := by
  have hget : c.GetDeployment D.ObjectMeta.key = .ok d1 := by
    rw [Cluster.GetDeployment_no_fault c _ hfetch, hfind]
  have hrd := reconcileDeployment_found c D d1 hget
  rw [if_pos hde] at hrd
  exact hrd

/-! ## Facts about status conditions -/

theorem mergeCondition_type (now : Time) (e new : Condition) :
    (mergeCondition now e new).CondType = e.CondType := by
  simp only [mergeCondition]
  split <;> rfl

theorem mergeCondition_status (now : Time) (e new : Condition) :
    (mergeCondition now e new).Status = new.Status := by
  simp only [mergeCondition]
  split
  · rfl
  · rename_i h
    simpa using h

theorem mergeCondition_of_same (now : Time) (x new : Condition)
    (hs : x.Status = new.Status) (hr : x.Reason = new.Reason) (hm : x.Message = new.Message)
    (ho : x.ObservedGeneration = new.ObservedGeneration) : mergeCondition now x new = x := by
  cases x
  cases new
  simp only at hs hr hm ho
  subst hs hr hm ho
  simp [mergeCondition]

theorem mergeCondition_again (now1 now2 : Time) (e new : Condition) :
    mergeCondition now2 (mergeCondition now1 e new) new = mergeCondition now1 e new :=
  mergeCondition_of_same now2 _ new (mergeCondition_status now1 e new) rfl rfl rfl

theorem find_setExisting (now : Time) (new : Condition) (cs : List Condition) (e : Condition)
    (h : FindStatusCondition cs new.CondType = some e) :
    FindStatusCondition (setExisting now new cs) new.CondType
      = some (mergeCondition now e new) := by
  induction cs with
  | nil => simp [FindStatusCondition] at h
  | cons c cs ih =>
    by_cases hc : c.CondType = new.CondType
    · have he : c = e := by
        simpa [FindStatusCondition, List.find?_cons, hc] using h
      subst he
      simp [setExisting, FindStatusCondition, List.find?_cons, hc, mergeCondition_type]
    · have hb : (c.CondType == new.CondType) = false := by simpa using hc
      have h2 : FindStatusCondition cs new.CondType = some e := by
        simpa [FindStatusCondition, List.find?_cons, hb] using h
      have ih2 := ih h2
      simp only [FindStatusCondition] at ih2
      simp only [setExisting, FindStatusCondition, hb, Bool.false_eq_true, if_false,
        List.find?_cons]
      exact ih2

theorem setExisting_again (now1 now2 : Time) (new : Condition) (cs : List Condition) :
    setExisting now2 new (setExisting now1 new cs) = setExisting now1 new cs := by
  induction cs with
  | nil => rfl
  | cons c cs ih =>
    by_cases hc : c.CondType = new.CondType
    · simp [setExisting, hc, mergeCondition_type, mergeCondition_again]
    · have hb : (c.CondType == new.CondType) = false := by simpa using hc
      simp only [setExisting, hb, Bool.false_eq_true, if_false]
      rw [ih]

theorem setExisting_append_new (now : Time) (new x : Condition) (cs : List Condition)
    (hnone : FindStatusCondition cs new.CondType = none)
    (hx : x.CondType = new.CondType) (hm : mergeCondition now x new = x) :
    setExisting now new (cs ++ [x]) = cs ++ [x] := by
  induction cs with
  | nil => simp [setExisting, hx, hm]
  | cons c cs ih =>
    by_cases hc : c.CondType = new.CondType
    · simp [FindStatusCondition, List.find?_cons, hc] at hnone
    · have hb : (c.CondType == new.CondType) = false := by simpa using hc
      have h2 : FindStatusCondition cs new.CondType = none := by
        simpa [FindStatusCondition, List.find?_cons, hb] using hnone
      simp only [List.cons_append, setExisting, hb, Bool.false_eq_true, if_false]
      exact congrArg (fun l => c :: l) (ih h2)

theorem find_append_of_none (cs : List Condition) (x : Condition) (t : String)
    (hnone : FindStatusCondition cs t = none) (hx : x.CondType = t) :
    FindStatusCondition (cs ++ [x]) t = some x := by
  simp only [FindStatusCondition] at hnone ⊢
  simp [List.find?_append, hnone, hx]

theorem find_SetStatusCondition (now : Time) (cs : List Condition) (new : Condition) :
    ∃ cond : Condition,
      FindStatusCondition (SetStatusCondition now cs new) new.CondType = some cond ∧
      cond.Status = new.Status ∧ cond.Reason = new.Reason ∧ cond.Message = new.Message ∧
      cond.ObservedGeneration = new.ObservedGeneration := by
  unfold SetStatusCondition
  cases hfind : FindStatusCondition cs new.CondType with
  | none =>
    simp only
    split
    · exact ⟨_, find_append_of_none cs _ _ hfind rfl, rfl, rfl, rfl, rfl⟩
    · exact ⟨_, find_append_of_none cs _ _ hfind rfl, rfl, rfl, rfl, rfl⟩
  | some e =>
    simp only
    exact ⟨_, find_setExisting now new cs e hfind, mergeCondition_status now e new, rfl, rfl,
      rfl⟩

theorem SetStatusCondition_of_found (now : Time) (cs : List Condition) (new e : Condition)
    (h : FindStatusCondition cs new.CondType = some e) :
    SetStatusCondition now cs new = setExisting now new cs := by
  unfold SetStatusCondition
  rw [h]

theorem SetStatusCondition_again (now1 now2 : Time) (cs : List Condition) (new : Condition) :
    SetStatusCondition now2 (SetStatusCondition now1 cs new) new
      = SetStatusCondition now1 cs new := by
  obtain ⟨cond, hcond, _⟩ := find_SetStatusCondition now1 cs new
  rw [SetStatusCondition_of_found now2 _ new cond hcond]
  unfold SetStatusCondition
  cases hfind : FindStatusCondition cs new.CondType with
  | none =>
    simp only
    split
    · exact setExisting_append_new now2 new _ cs hfind rfl
        (mergeCondition_of_same now2 _ new rfl rfl rfl rfl)
    · exact setExisting_append_new now2 new _ cs hfind rfl
        (mergeCondition_of_same now2 _ new rfl rfl rfl rfl)
  | some e =>
    simp only
    exact setExisting_again now1 now2 new cs

/-! ## The paths of `Reconcile` -/

theorem Reconcile_fetch_error (scheme : Scheme) (now : Time) (c : Cluster)
    (req : NamespacedName) (e : GoError) (hn : c.GetNginx req = .error e) :
    Reconcile scheme now c req
      = (({ Requeue := false, RequeueAfter := 0 }, IgnoreNotFound e), c) := by
  simp only [Reconcile, hn]

theorem Reconcile_ownerref_error (scheme : Scheme) (now : Time) (c : Cluster)
    (req : NamespacedName) (nginx : Nginx) (e : GoError) (d : Deployment)
    (hn : c.GetNginx req = .ok nginx)
    (hs : SetControllerReference nginx (deploy nginx) scheme = (some e, d)) :
    Reconcile scheme now c req
      = (({ Requeue := false, RequeueAfter := 0 }, some (Errorf "setting ownerref" e)), c) := by
  simp only [Reconcile, hn, hs]

theorem Reconcile_child_error (scheme : Scheme) (now : Time) (c c1 : Cluster)
    (req : NamespacedName) (nginx : Nginx) (dep : Deployment) (x : Option Deployment)
    (e : GoError)
    (hn : c.GetNginx req = .ok nginx)
    (hs : SetControllerReference nginx (deploy nginx) scheme = (none, dep))
    (hrd : reconcileDeployment c dep = ((x, some e), c1)) :
    Reconcile scheme now c req
      = (({ Requeue := false, RequeueAfter := 0 },
          some (Errorf "reconciling deployment" e)), c1) := by
  simp only [Reconcile, hn, hs, hrd]

theorem Reconcile_child_ok (scheme : Scheme) (now : Time) (c c1 : Cluster)
    (req : NamespacedName) (nginx : Nginx) (dep cd : Deployment)
    (hn : c.GetNginx req = .ok nginx)
    (hs : SetControllerReference nginx (deploy nginx) scheme = (none, dep))
    (hrd : reconcileDeployment c dep = ((some cd, none), c1)) :
    Reconcile scheme now c req =
      if cd.Status.ObservedGeneration != cd.ObjectMeta.Generation then
        (({ Requeue := false, RequeueAfter := 0 }, none), c1)
      else
        (({ Requeue := false, RequeueAfter := 0 },
          (c1.StatusUpdate (withStatus now nginx (available cd))).1),
         (c1.StatusUpdate (withStatus now nginx (available cd))).2) := by
  simp only [Reconcile, hn, hs, hrd]

/-! ## The Applier: `reconcileDeployment` -/

/-- C1: when the fetch reflects the store and `reconcileDeployment c D`
succeeds, the first call makes at most one write (one create when the child was
absent, at most one update when it was present), the store then holds the
returned Deployment, and a second call with the same `D` returns that
Deployment and leaves the store, its write log included, as it is. -/
theorem reconcileDeployment_idempotent (c : Cluster) (D : Deployment)
    (hfetch : c.faults.GetDeployment = none)
    (hok : (reconcileDeployment c D).1.2 = none) :
    ∃ d1 : Deployment,
      (reconcileDeployment c D).1.1 = some d1 ∧
      (reconcileDeployment c D).2.findDeployment D.ObjectMeta.key = some d1 ∧
      ((c.findDeployment D.ObjectMeta.key = none ∧
          (reconcileDeployment c D).2.log = c.log ++ [.create d1]) ∨
       (c.findDeployment D.ObjectMeta.key ≠ none ∧
          ((reconcileDeployment c D).2.log = c.log ∨
           (reconcileDeployment c D).2.log = c.log ++ [.update d1]))) ∧
      reconcileDeployment (reconcileDeployment c D).2 D
        = ((some d1, none), (reconcileDeployment c D).2) := by
  obtain ⟨d1, hres, hfind, hde, hlog⟩ := reconcileDeployment_converged c D hfetch hok
  have hfault1 : (reconcileDeployment c D).2.faults.GetDeployment = none := by
    rw [(reconcileDeployment_frame c D).2.1]
    exact hfetch
  exact ⟨d1, hres, hfind, hlog,
    reconcileDeployment_again (reconcileDeployment c D).2 D d1 hfault1 hfind hde⟩

/-- Witness of C1: the child of `web` converged on an empty store. -/
theorem reconcileDeployment_idempotent_witness :
    ∃ d1 : Deployment,
      (reconcileDeployment (Cluster.ofObjects [] []) (webChild "1.25")).1.1 = some d1 ∧
      (reconcileDeployment (Cluster.ofObjects [] []) (webChild "1.25")).2.findDeployment
        (webChild "1.25").ObjectMeta.key = some d1 ∧
      (((Cluster.ofObjects [] []).findDeployment (webChild "1.25").ObjectMeta.key = none ∧
          (reconcileDeployment (Cluster.ofObjects [] []) (webChild "1.25")).2.log
            = (Cluster.ofObjects [] []).log ++ [.create d1]) ∨
       ((Cluster.ofObjects [] []).findDeployment (webChild "1.25").ObjectMeta.key ≠ none ∧
          ((reconcileDeployment (Cluster.ofObjects [] []) (webChild "1.25")).2.log
              = (Cluster.ofObjects [] []).log ∨
           (reconcileDeployment (Cluster.ofObjects [] []) (webChild "1.25")).2.log
              = (Cluster.ofObjects [] []).log ++ [.update d1]))) ∧
      reconcileDeployment (reconcileDeployment (Cluster.ofObjects [] []) (webChild "1.25")).2
          (webChild "1.25")
        = ((some d1, none), (reconcileDeployment (Cluster.ofObjects [] []) (webChild "1.25")).2) :=
  reconcileDeployment_idempotent (Cluster.ofObjects [] []) (webChild "1.25") rfl (by decide)

/-- C2, as the spec states it, fails: the stored child of `web` has no replica
count set, the desired Deployment asks for three replicas and another image, and
the update that `reconcileDeployment` writes carries the desired three replicas,
not the current (unset) count. -/
theorem replicas_overwritten_when_current_unset :
    (webChild "1.25").Spec.Replicas = none ∧
    (scaledChild "1.26" 3).Spec.Replicas = some 3 ∧
    (webChild "1.25").Spec.Template.Spec ≠ (scaledChild "1.26" 3).Spec.Template.Spec ∧
    (reconcileDeployment (Cluster.ofObjects [] [webChild "1.25"]) (scaledChild "1.26" 3)).2.log
      = [.update { webChild "1.25" with Spec := (scaledChild "1.26" 3).Spec }] ∧
    ({ webChild "1.25" with Spec := (scaledChild "1.26" 3).Spec } : Deployment).Spec.Replicas
      ≠ (webChild "1.25").Spec.Replicas := by
  decide

/-- C2, amended: when the current Deployment has a replica count set and the
desired spec, with that count carried over, still differs from the current spec,
a successful update writes and returns the current object with the desired spec
in which only the replica count is the current one. -/
theorem reconcileDeployment_preserves_set_replicas (c c1 : Cluster) (D cur : Deployment)
    (r : Int)
    (hget : c.GetDeployment D.ObjectMeta.key = .ok cur)
    (hr : cur.Spec.Replicas = some r)
    (hdrift : DeepEqual { D.Spec with Replicas := some r } cur.Spec = false)
    (hupd : c.Update { cur with Spec := { D.Spec with Replicas := some r } } = (none, c1)) :
    reconcileDeployment c D
      = ((some { cur with Spec := { D.Spec with Replicas := some r } }, none), c1) ∧
    c1.log = c.log ++ [.update { cur with Spec := { D.Spec with Replicas := some r } }] ∧
    ({ cur with Spec := { D.Spec with Replicas := some r } } : Deployment).Spec.Replicas
      = cur.Spec.Replicas := by
  have hspec : (keepReplicas cur D).Spec = { D.Spec with Replicas := some r } := by
    rw [keepReplicas_spec, hr]
    rfl
  have hrd := reconcileDeployment_found c D cur hget
  rw [hspec] at hrd
  rw [hdrift] at hrd
  simp only [Bool.false_eq_true, if_false, hupd] at hrd
  obtain ⟨_, hc1⟩ := Cluster.Update_ok hupd
  refine ⟨hrd, ?_, hr.symm⟩
  rw [hc1]

/-- Witness of the amended C2: the stored child runs five replicas, the desired
Deployment asks for three and for another image. -/
theorem reconcileDeployment_preserves_set_replicas_witness :
    reconcileDeployment (Cluster.ofObjects [] [scaledChild "1.25" 5]) (scaledChild "1.26" 3)
      = ((some { scaledChild "1.25" 5 with
                 Spec := { (scaledChild "1.26" 3).Spec with Replicas := some 5 } }, none),
         { Cluster.ofObjects []
             [{ scaledChild "1.25" 5 with
                Spec := { (scaledChild "1.26" 3).Spec with Replicas := some 5 } }] with
           log := [.update { scaledChild "1.25" 5 with
                             Spec := { (scaledChild "1.26" 3).Spec with Replicas := some 5 } }] }) :=
  (reconcileDeployment_preserves_set_replicas (Cluster.ofObjects [] [scaledChild "1.25" 5])
    { Cluster.ofObjects []
        [{ scaledChild "1.25" 5 with
           Spec := { (scaledChild "1.26" 3).Spec with Replicas := some 5 } }] with
      log := [.update { scaledChild "1.25" 5 with
                        Spec := { (scaledChild "1.26" 3).Spec with Replicas := some 5 } }] }
    (scaledChild "1.26" 3) (scaledChild "1.25" 5) 5 rfl (by decide) (by decide)
    (by decide)).1

/-- C10: for an existing current Deployment, `reconcileDeployment` decides by
comparing the two specs only (the desired one after the replica carry-over): on
equality it writes nothing and returns the current object; otherwise a
successful update writes and returns the current object with its metadata and
status unchanged and its spec replaced.  The outcome does not depend on the
metadata of the desired Deployment beyond its key, so a desired Deployment whose
spec equals the current spec causes no write and the current metadata stays. -/
theorem reconcileDeployment_touches_only_spec (c : Cluster) (D cur : Deployment)
    (hget : c.GetDeployment D.ObjectMeta.key = .ok cur) :
    (DeepEqual (keepReplicas cur D).Spec cur.Spec = true →
       reconcileDeployment c D = ((some cur, none), c)) ∧
    (DeepEqual (keepReplicas cur D).Spec cur.Spec = false →
       ∀ c1, c.Update { cur with Spec := (keepReplicas cur D).Spec } = (none, c1) →
         reconcileDeployment c D
           = ((some { ObjectMeta := cur.ObjectMeta, Spec := (keepReplicas cur D).Spec,
                      Status := cur.Status }, none), c1) ∧
         c1.log = c.log ++ [.update { ObjectMeta := cur.ObjectMeta,
                                      Spec := (keepReplicas cur D).Spec,
                                      Status := cur.Status }]) ∧
    (∀ D2 : Deployment, D2.ObjectMeta.key = D.ObjectMeta.key → D2.Spec = D.Spec →
       reconcileDeployment c D2 = reconcileDeployment c D) ∧
    (D.Spec = cur.Spec → reconcileDeployment c D = ((some cur, none), c)) := by
  have hrd := reconcileDeployment_found c D cur hget
  refine ⟨?_, ?_, ?_, ?_⟩
  · intro hde
    rw [if_pos hde] at hrd
    exact hrd
  · intro hde c1 hupd
    rw [hde] at hrd
    simp only [Bool.false_eq_true, if_false, hupd] at hrd
    obtain ⟨_, hc1⟩ := Cluster.Update_ok hupd
    refine ⟨hrd, ?_⟩
    rw [hc1]
  · intro D2 hk hs
    have hget2 : c.GetDeployment D2.ObjectMeta.key = .ok cur := by rw [hk]; exact hget
    have hrd2 := reconcileDeployment_found c D2 cur hget2
    have hspec : (keepReplicas cur D2).Spec = (keepReplicas cur D).Spec := by
      rw [keepReplicas_spec, keepReplicas_spec, hs]
    rw [hspec] at hrd2
    rw [hrd, hrd2]
  · intro hs
    have hkeep : keepReplicas cur D = D := keepReplicas_of_same cur D (by rw [hs])
    rw [hkeep, hs, DeepEqual_refl] at hrd
    simpa using hrd

/-- Witness of C10: the desired Deployment differs from the stored child only in
its metadata (no labels, no owner reference); nothing is written. -/
theorem reconcileDeployment_touches_only_spec_witness :
    reconcileDeployment (Cluster.ofObjects [] [webChild "1.25"])
        { webChild "1.25" with
          ObjectMeta := { (webChild "1.25").ObjectMeta with Labels := [], OwnerReferences := [] } }
      = ((some (webChild "1.25"), none), Cluster.ofObjects [] [webChild "1.25"]) :=
  (reconcileDeployment_touches_only_spec (Cluster.ofObjects [] [webChild "1.25"])
    { webChild "1.25" with
      ObjectMeta := { (webChild "1.25").ObjectMeta with Labels := [], OwnerReferences := [] } }
    (webChild "1.25") rfl).2.2.2 (by decide)

/-! ## The Reconciler: `Reconcile` -/

theorem Cluster.Create_fst_error {c : Cluster} {obj : Deployment} {e : GoError}
    (h : (c.Create obj).1 = some e) : c.Create obj = (some e, c) := by
  cases hc : c.Create obj with
  | mk oe c1 =>
    rw [hc] at h
    simp only at h
    subst h
    rw [Cluster.Create_error hc]

theorem Cluster.Update_fst_error {c : Cluster} {obj : Deployment} {e : GoError}
    (h : (c.Update obj).1 = some e) : c.Update obj = (some e, c) := by
  cases hc : c.Update obj with
  | mk oe c1 =>
    rw [hc] at h
    simp only at h
    subst h
    rw [Cluster.Update_error hc]

theorem reconcileDeployment_create_error (c : Cluster) (D : Deployment) (e0 e : GoError)
    (hget : c.GetDeployment D.ObjectMeta.key = .error e0) (hnf : IsNotFound e0 = true)
    (hc : (c.Create D).1 = some e) :
    reconcileDeployment c D = ((none, some (Errorf "creating Deployment" e)), c) := by
  rw [reconcileDeployment_absent c D e0 hget hnf, Cluster.Create_fst_error hc]

theorem reconcileDeployment_update_error (c : Cluster) (D cur : Deployment) (e : GoError)
    (hget : c.GetDeployment D.ObjectMeta.key = .ok cur)
    (hde : DeepEqual (keepReplicas cur D).Spec cur.Spec = false)
    (hu : (c.Update { cur with Spec := (keepReplicas cur D).Spec }).1 = some e) :
    reconcileDeployment c D = ((none, some (Errorf "updating Deployment" e)), c) := by
  rw [reconcileDeployment_found c D cur hget, hde, Cluster.Update_fst_error hu]
  simp

theorem available_iff (cd : Deployment) :
    available cd = true ↔
      ∃ dc ∈ cd.Status.Conditions,
        dc.CondType = DeploymentAvailable ∧ dc.Status = ConditionTrue := by
  simp [available, List.any_eq_true]

theorem withStatus_true (now : Time) (nginx : Nginx) :
    (withStatus now nginx true).Status.Phase = NginxPhaseReady ∧
    ∃ cond : Condition,
      FindStatusCondition (withStatus now nginx true).Status.Conditions NginxAvailable
        = some cond ∧
      cond.Status = ConditionTrue ∧ cond.Reason = "Setup" := by
  obtain ⟨cond, hfind, hst, hre, _, _⟩ :=
    find_SetStatusCondition now nginx.Status.Conditions
      { CondType := NginxAvailable, Status := ConditionTrue, Reason := "Setup",
        Message := "Nginx is up and running.",
        ObservedGeneration := nginx.ObjectMeta.Generation, LastTransitionTime := 0 }
  exact ⟨rfl, cond, hfind, hst, hre⟩

theorem withStatus_false (now : Time) (nginx : Nginx) :
    (withStatus now nginx false).Status.Phase = NginxPhaseNotReady ∧
    ∃ cond : Condition,
      FindStatusCondition (withStatus now nginx false).Status.Conditions NginxAvailable
        = some cond ∧
      cond.Status = ConditionFalse ∧ cond.Reason = "NotAvailable" := by
  obtain ⟨cond, hfind, hst, hre, _, _⟩ :=
    find_SetStatusCondition now nginx.Status.Conditions
      { CondType := NginxAvailable, Status := ConditionFalse, Reason := "NotAvailable",
        Message := "Nginx deployment is not available.",
        ObservedGeneration := nginx.ObjectMeta.Generation, LastTransitionTime := 0 }
  exact ⟨rfl, cond, hfind, hst, hre⟩

theorem withStatus_meta (now : Time) (nginx : Nginx) (a : Bool) :
    (withStatus now nginx a).ObjectMeta = nginx.ObjectMeta ∧
    (withStatus now nginx a).Spec = nginx.Spec := by
  cases a <;> exact ⟨rfl, rfl⟩

/-- C7: when the fetch of the Nginx object reports not-found, `Reconcile`
returns no error and leaves the store, its write log included, as it is; on any
other fetch error it returns that error and likewise leaves the store as it
is. -/
theorem Reconcile_nginx_fetch_failure (scheme : Scheme) (now : Time) (c : Cluster)
    (req : NamespacedName) (e : GoError) (hn : c.GetNginx req = .error e) :
    (IsNotFound e = true →
       Reconcile scheme now c req = (({ Requeue := false, RequeueAfter := 0 }, none), c)) ∧
    (IsNotFound e = false →
       Reconcile scheme now c req
         = (({ Requeue := false, RequeueAfter := 0 }, some e), c)) := by
  have hrec := Reconcile_fetch_error scheme now c req e hn
  constructor
  · intro h
    rw [hrec]
    simp [IgnoreNotFound, h]
  · intro h
    rw [hrec]
    simp [IgnoreNotFound, h]

/-- Witness of C7: the object `web` is gone from the store; and a store whose
fetch of Nginx objects fails. -/
theorem Reconcile_nginx_fetch_failure_witness :
    Reconcile managerScheme 7 (Cluster.ofObjects [] [webChild "1.25"]) webKey
      = (({ Requeue := false, RequeueAfter := 0 }, none),
         Cluster.ofObjects [] [webChild "1.25"]) ∧
    Reconcile managerScheme 7
        ((Cluster.ofObjects [webNginx "1.25"] []).withFaults
          { noFaults with GetNginx := some boom }) webKey
      = (({ Requeue := false, RequeueAfter := 0 }, some boom),
         (Cluster.ofObjects [webNginx "1.25"] []).withFaults
           { noFaults with GetNginx := some boom }) :=
  ⟨(Reconcile_nginx_fetch_failure managerScheme 7 (Cluster.ofObjects [] [webChild "1.25"])
      webKey (.status StatusReasonNotFound "not found") rfl).1 (by decide),
   (Reconcile_nginx_fetch_failure managerScheme 7
      ((Cluster.ofObjects [webNginx "1.25"] []).withFaults
        { noFaults with GetNginx := some boom }) webKey boom rfl).2 (by decide)⟩

/-- C5: when the Deployment returned by `reconcileDeployment` has an observed
generation different from its generation, `Reconcile` returns no error and ends
the pass there: the stored Nginx objects are those from before the pass and the
pass has logged child writes only, no status write. -/
theorem Reconcile_generation_lag (scheme : Scheme) (now : Time) (c c1 : Cluster)
    (req : NamespacedName) (nginx : Nginx) (dep cd : Deployment)
    (hn : c.GetNginx req = .ok nginx)
    (hs : SetControllerReference nginx (deploy nginx) scheme = (none, dep))
    (hrd : reconcileDeployment c dep = ((some cd, none), c1))
    (hlag : cd.Status.ObservedGeneration ≠ cd.ObjectMeta.Generation) :
    Reconcile scheme now c req = (({ Requeue := false, RequeueAfter := 0 }, none), c1) ∧
    c1.nginxes = c.nginxes ∧
    ∃ ws : List Write, c1.log = c.log ++ ws ∧ ∀ w ∈ ws, w.isChild = true := by
  have hrec := Reconcile_child_ok scheme now c c1 req nginx dep cd hn hs hrd
  have hb : (cd.Status.ObservedGeneration != cd.ObjectMeta.Generation) = true := by
    simpa using hlag
  rw [if_pos hb] at hrec
  have hframe := reconcileDeployment_frame c dep
  rw [hrd] at hframe
  exact ⟨hrec, hframe.1, hframe.2.2⟩

/-- Witness of C5: the stored child of `web` is at generation 2 and its status
has observed generation 1. -/
theorem Reconcile_generation_lag_witness :
    Reconcile managerScheme 7
        (Cluster.ofObjects [webNginx "1.25"] [laggingChild "1.25"]) webKey
      = (({ Requeue := false, RequeueAfter := 0 }, none),
         Cluster.ofObjects [webNginx "1.25"] [laggingChild "1.25"]) :=
  (Reconcile_generation_lag managerScheme 7
    (Cluster.ofObjects [webNginx "1.25"] [laggingChild "1.25"])
    (Cluster.ofObjects [webNginx "1.25"] [laggingChild "1.25"]) webKey (webNginx "1.25")
    (webChild "1.25") (laggingChild "1.25") rfl rfl (by decide) (by decide)).1

/-- C4: in a pass that reaches the status write (the child was converged and
its status has caught up with its generation), the Nginx object handed to the
status update has phase Ready and an Available condition with status True and
reason "Setup" when the child has a condition of type Available with status
True, and phase NotReady and an Available condition with status False and reason
"NotAvailable" otherwise.  The phase is Ready or NotReady, never Pending, and it
is Ready exactly when the Available condition is True. -/
theorem Reconcile_status_derivation (scheme : Scheme) (now : Time) (c c1 : Cluster)
    (req : NamespacedName) (nginx : Nginx) (dep cd : Deployment)
    (hn : c.GetNginx req = .ok nginx)
    (hs : SetControllerReference nginx (deploy nginx) scheme = (none, dep))
    (hrd : reconcileDeployment c dep = ((some cd, none), c1))
    (hgen : cd.Status.ObservedGeneration = cd.ObjectMeta.Generation) :
    ∃ n : Nginx,
      Reconcile scheme now c req
        = (({ Requeue := false, RequeueAfter := 0 }, (c1.StatusUpdate n).1),
           (c1.StatusUpdate n).2) ∧
      n.ObjectMeta = nginx.ObjectMeta ∧ n.Spec = nginx.Spec ∧
      ((∃ dc ∈ cd.Status.Conditions,
          dc.CondType = DeploymentAvailable ∧ dc.Status = ConditionTrue) →
        n.Status.Phase = NginxPhaseReady ∧
        ∃ cond : Condition,
          FindStatusCondition n.Status.Conditions NginxAvailable = some cond ∧
          cond.Status = ConditionTrue ∧ cond.Reason = "Setup") ∧
      ((¬ ∃ dc ∈ cd.Status.Conditions,
          dc.CondType = DeploymentAvailable ∧ dc.Status = ConditionTrue) →
        n.Status.Phase = NginxPhaseNotReady ∧
        ∃ cond : Condition,
          FindStatusCondition n.Status.Conditions NginxAvailable = some cond ∧
          cond.Status = ConditionFalse ∧ cond.Reason = "NotAvailable") ∧
      (n.Status.Phase = NginxPhaseReady ∨ n.Status.Phase = NginxPhaseNotReady) ∧
      ¬ (n.Status.Phase = NginxPhaseReady ∧ n.Status.Phase = NginxPhaseNotReady) ∧
      n.Status.Phase ≠ NginxPhasePending ∧
      (n.Status.Phase = NginxPhaseReady ↔
        ∃ cond : Condition,
          FindStatusCondition n.Status.Conditions NginxAvailable = some cond ∧
          cond.Status = ConditionTrue) := by
  have hrec := Reconcile_child_ok scheme now c c1 req nginx dep cd hn hs hrd
  have hb : (cd.Status.ObservedGeneration != cd.ObjectMeta.Generation) = false := by
    simpa using hgen
  rw [hb] at hrec
  simp only [Bool.false_eq_true, if_false] at hrec
  refine ⟨withStatus now nginx (available cd), hrec, (withStatus_meta now nginx _).1,
    (withStatus_meta now nginx _).2, ?_⟩
  have hiff := available_iff cd
  cases ha : available cd with
  | true =>
    obtain ⟨hphase, cond, hfind, hst, hre⟩ := withStatus_true now nginx
    have hex := hiff.mp ha
    refine ⟨fun _ => ⟨hphase, cond, hfind, hst, hre⟩, fun hnot => absurd hex hnot,
      Or.inl hphase, ?_, ?_, ?_⟩
    · rw [hphase]
      intro h
      exact absurd h.2 (by decide)
    · rw [hphase]
      decide
    · exact ⟨fun _ => ⟨cond, hfind, hst⟩, fun _ => hphase⟩
  | false =>
    obtain ⟨hphase, cond, hfind, hst, hre⟩ := withStatus_false now nginx
    have hnex : ¬ ∃ dc ∈ cd.Status.Conditions,
        dc.CondType = DeploymentAvailable ∧ dc.Status = ConditionTrue := by
      intro hex
      have := hiff.mpr hex
      rw [ha] at this
      exact absurd this (by decide)
    refine ⟨fun hex => absurd hex hnex, fun _ => ⟨hphase, cond, hfind, hst, hre⟩,
      Or.inr hphase, ?_, ?_, ?_⟩
    · rw [hphase]
      intro h
      exact absurd h.1 (by decide)
    · rw [hphase]
      decide
    · constructor
      · rw [hphase]
        intro h
        exact absurd h (by decide)
      · rintro ⟨cond2, hfind2, hst2⟩
        rw [hfind] at hfind2
        have hc : cond = cond2 := by simpa using hfind2
        rw [← hc, hst] at hst2
        exact absurd hst2 (by decide)

/-- Witness of C4: the stored child of `web` reports Available as True, and the
pass writes phase Ready with the Available condition True. -/
theorem Reconcile_status_derivation_witness :
    ∃ n : Nginx,
      Reconcile managerScheme 7
          (Cluster.ofObjects [webNginx "1.25"] [readyChild "1.25"]) webKey
        = (({ Requeue := false, RequeueAfter := 0 },
            ((Cluster.ofObjects [webNginx "1.25"] [readyChild "1.25"]).StatusUpdate n).1),
           ((Cluster.ofObjects [webNginx "1.25"] [readyChild "1.25"]).StatusUpdate n).2) ∧
      n.Status.Phase = NginxPhaseReady ∧
      ∃ cond : Condition,
        FindStatusCondition n.Status.Conditions NginxAvailable = some cond ∧
        cond.Status = ConditionTrue ∧ cond.Reason = "Setup" := by
  obtain ⟨n, hrec, _, _, hready, _⟩ :=
    Reconcile_status_derivation managerScheme 7
      (Cluster.ofObjects [webNginx "1.25"] [readyChild "1.25"])
      (Cluster.ofObjects [webNginx "1.25"] [readyChild "1.25"]) webKey (webNginx "1.25")
      (webChild "1.25") (readyChild "1.25") rfl rfl (by decide) (by decide)
  exact ⟨n, hrec, hready ⟨_, List.mem_singleton.mpr rfl, rfl, rfl⟩⟩

/-- C6: when the fetch of the child fails with an error that is not not-found,
or the create fails, or the update fails, `reconcileDeployment` returns that
error wrapped with the failing step, `Reconcile` returns it wrapped once more,
and the store, its Nginx objects and its write log included, is as before the
pass: no status write is made. -/
theorem applier_failure_aborts_pass (c : Cluster) (D : Deployment) (e : GoError)
    (hfail :
      (c.GetDeployment D.ObjectMeta.key = .error e ∧ IsNotFound e = false) ∨
      (∃ e0, c.GetDeployment D.ObjectMeta.key = .error e0 ∧ IsNotFound e0 = true ∧
        (c.Create D).1 = some e) ∨
      (∃ cur, c.GetDeployment D.ObjectMeta.key = .ok cur ∧
        DeepEqual (keepReplicas cur D).Spec cur.Spec = false ∧
        (c.Update { cur with Spec := (keepReplicas cur D).Spec }).1 = some e)) :
    ∃ step : String,
      step ∈ ["getting Deployment", "creating Deployment", "updating Deployment"] ∧
      reconcileDeployment c D = ((none, some (Errorf step e)), c) ∧
      ∀ (scheme : Scheme) (now : Time) (req : NamespacedName) (nginx : Nginx),
        c.GetNginx req = .ok nginx →
        SetControllerReference nginx (deploy nginx) scheme = (none, D) →
        Reconcile scheme now c req
          = (({ Requeue := false, RequeueAfter := 0 },
              some (Errorf "reconciling deployment" (Errorf step e))), c) := by
  rcases hfail with ⟨hget, hnf⟩ | ⟨e0, hget, hnf, hc⟩ | ⟨cur, hget, hde, hu⟩
  · have hrd := reconcileDeployment_fetch_error c D e hget hnf
    exact ⟨"getting Deployment", by simp, hrd, fun scheme now req nginx hn hs =>
      Reconcile_child_error scheme now c c req nginx D none _ hn hs hrd⟩
  · have hrd := reconcileDeployment_create_error c D e0 e hget hnf hc
    exact ⟨"creating Deployment", by simp, hrd, fun scheme now req nginx hn hs =>
      Reconcile_child_error scheme now c c req nginx D none _ hn hs hrd⟩
  · have hrd := reconcileDeployment_update_error c D cur e hget hde hu
    exact ⟨"updating Deployment", by simp, hrd, fun scheme now req nginx hn hs =>
      Reconcile_child_error scheme now c c req nginx D none _ hn hs hrd⟩

/-- Witness of C6: the fetch of the child of `web` fails. -/
theorem applier_failure_aborts_pass_witness :
    ∃ step : String,
      step ∈ ["getting Deployment", "creating Deployment", "updating Deployment"] ∧
      reconcileDeployment
          ((Cluster.ofObjects [webNginx "1.25"] []).withFaults
            { noFaults with GetDeployment := some boom }) (webChild "1.25")
        = ((none, some (Errorf step boom)),
           (Cluster.ofObjects [webNginx "1.25"] []).withFaults
             { noFaults with GetDeployment := some boom }) ∧
      ∀ (scheme : Scheme) (now : Time) (req : NamespacedName) (nginx : Nginx),
        ((Cluster.ofObjects [webNginx "1.25"] []).withFaults
            { noFaults with GetDeployment := some boom }).GetNginx req = .ok nginx →
        SetControllerReference nginx (deploy nginx) scheme = (none, webChild "1.25") →
        Reconcile scheme now
            ((Cluster.ofObjects [webNginx "1.25"] []).withFaults
              { noFaults with GetDeployment := some boom }) req
          = (({ Requeue := false, RequeueAfter := 0 },
              some (Errorf "reconciling deployment" (Errorf step boom))),
             (Cluster.ofObjects [webNginx "1.25"] []).withFaults
               { noFaults with GetDeployment := some boom }) :=
  applier_failure_aborts_pass
    ((Cluster.ofObjects [webNginx "1.25"] []).withFaults
      { noFaults with GetDeployment := some boom })
    (webChild "1.25") boom (Or.inl ⟨rfl, by decide⟩)

/-- C9, as the spec states it, fails for the status update: when the final
status update of the pass for `web` fails, `Reconcile` returns the error of the
store itself, which is not an error wrapped with a step context. -/
theorem status_update_error_returned_bare :
    (Reconcile managerScheme 7
        ((Cluster.ofObjects [webNginx "1.25"] [webChild "1.25"]).withFaults
          { noFaults with StatusUpdate := some boom }) webKey).1.2 = some boom ∧
    ∀ (step : String) (cause : GoError), boom ≠ Errorf step cause := by
  refine ⟨by decide, ?_⟩
  intro step cause h
  simp [boom, Errorf] at h

/-- C9, amended: a failure to set the owner reference is returned wrapped with
"setting ownerref"; a failure of the child fetch, create or update is returned
wrapped with "getting Deployment", "creating Deployment" or "updating
Deployment" and then with "reconciling deployment"; a failure of the final
status update is returned as the error of the store, unwrapped. -/
theorem Reconcile_errors_carry_step (scheme : Scheme) (now : Time) (c : Cluster)
    (req : NamespacedName) (nginx : Nginx) (hn : c.GetNginx req = .ok nginx) :
    (∀ (e : GoError) (d : Deployment),
       SetControllerReference nginx (deploy nginx) scheme = (some e, d) →
       (Reconcile scheme now c req).1.2 = some (Errorf "setting ownerref" e)) ∧
    (∀ dep : Deployment,
       SetControllerReference nginx (deploy nginx) scheme = (none, dep) →
       (∀ e : GoError,
          c.GetDeployment dep.ObjectMeta.key = .error e → IsNotFound e = false →
          (Reconcile scheme now c req).1.2
            = some (Errorf "reconciling deployment" (Errorf "getting Deployment" e))) ∧
       (∀ e0 e : GoError,
          c.GetDeployment dep.ObjectMeta.key = .error e0 → IsNotFound e0 = true →
          (c.Create dep).1 = some e →
          (Reconcile scheme now c req).1.2
            = some (Errorf "reconciling deployment" (Errorf "creating Deployment" e))) ∧
       (∀ (cur : Deployment) (e : GoError),
          c.GetDeployment dep.ObjectMeta.key = .ok cur →
          DeepEqual (keepReplicas cur dep).Spec cur.Spec = false →
          (c.Update { cur with Spec := (keepReplicas cur dep).Spec }).1 = some e →
          (Reconcile scheme now c req).1.2
            = some (Errorf "reconciling deployment" (Errorf "updating Deployment" e))) ∧
       (∀ (cd : Deployment) (c1 : Cluster) (e : GoError),
          reconcileDeployment c dep = ((some cd, none), c1) →
          cd.Status.ObservedGeneration = cd.ObjectMeta.Generation →
          (c1.StatusUpdate (withStatus now nginx (available cd))).1 = some e →
          (Reconcile scheme now c req).1.2 = some e)) := by
  constructor
  · intro e d hs
    rw [Reconcile_ownerref_error scheme now c req nginx e d hn hs]
  · intro dep hs
    refine ⟨?_, ?_, ?_, ?_⟩
    · intro e hget hnf
      rw [Reconcile_child_error scheme now c c req nginx dep none _ hn hs
        (reconcileDeployment_fetch_error c dep e hget hnf)]
    · intro e0 e hget hnf hc
      rw [Reconcile_child_error scheme now c c req nginx dep none _ hn hs
        (reconcileDeployment_create_error c dep e0 e hget hnf hc)]
    · intro cur e hget hde hu
      rw [Reconcile_child_error scheme now c c req nginx dep none _ hn hs
        (reconcileDeployment_update_error c dep cur e hget hde hu)]
    · intro cd c1 e hrd hgen hsu
      have hrec := Reconcile_child_ok scheme now c c1 req nginx dep cd hn hs hrd
      have hb : (cd.Status.ObservedGeneration != cd.ObjectMeta.Generation) = false := by
        simpa using hgen
      rw [hb] at hrec
      simp only [Bool.false_eq_true, if_false] at hrec
      rw [hrec]
      exact hsu

/-- Witness of the amended C9: in the pass for `web`, a failing child fetch is
returned with both step contexts, and a failing status update is returned
bare. -/
theorem Reconcile_errors_carry_step_witness :
    (Reconcile managerScheme 7
        ((Cluster.ofObjects [webNginx "1.25"] []).withFaults
          { noFaults with GetDeployment := some boom }) webKey).1.2
      = some (Errorf "reconciling deployment" (Errorf "getting Deployment" boom)) ∧
    (Reconcile managerScheme 7
        ((Cluster.ofObjects [webNginx "1.25"] [webChild "1.25"]).withFaults
          { noFaults with StatusUpdate := some boom }) webKey).1.2 = some boom :=
  ⟨((Reconcile_errors_carry_step managerScheme 7
        ((Cluster.ofObjects [webNginx "1.25"] []).withFaults
          { noFaults with GetDeployment := some boom }) webKey (webNginx "1.25") rfl).2
      (webChild "1.25") rfl).1 boom rfl (by decide),
   ((Reconcile_errors_carry_step managerScheme 7
        ((Cluster.ofObjects [webNginx "1.25"] [webChild "1.25"]).withFaults
          { noFaults with StatusUpdate := some boom }) webKey (webNginx "1.25") rfl).2
      (webChild "1.25") rfl).2.2.2 (webChild "1.25")
      ((Cluster.ofObjects [webNginx "1.25"] [webChild "1.25"]).withFaults
        { noFaults with StatusUpdate := some boom }) boom (by decide) (by decide)
      (by decide)⟩

theorem string_append_left_cancel (p a b : String) (h : p ++ a = p ++ b) : a = b := by
  have hd := congrArg String.data h
  simp only [String.data_append] at hd
  exact String.ext (List.append_cancel_left hd)

theorem SetControllerReference_ok (owner : Nginx) (controlled d : Deployment)
    (scheme : Scheme) (h : SetControllerReference owner controlled scheme = (none, d)) :
    d.Spec = controlled.Spec ∧ d.Status = controlled.Status ∧
    d.ObjectMeta.key = controlled.ObjectMeta.key := by
  unfold SetControllerReference at h
  split at h
  · simp at h
  · split at h
    · simp at h
    · simp only [Prod.mk.injEq, true_and] at h
      subst h
      exact ⟨rfl, rfl, rfl⟩

theorem DeepEqual_template (a b : DeploymentSpec) (h : DeepEqual a b = true) :
    a.Template.Spec = b.Template.Spec := by
  simp only [DeepEqual, Bool.and_eq_true, beq_iff_eq] at h
  exact h.1.2

theorem Cluster.Update_of_found (c : Cluster) (obj x : Deployment)
    (hfault : c.faults.Update = none)
    (hfind : c.findDeployment obj.ObjectMeta.key = some x) :
    c.Update obj =
      (none, { c with
               deployments :=
                 c.deployments.map
                   (fun y => if y.ObjectMeta.key == obj.ObjectMeta.key then obj else y),
               log := c.log ++ [.update obj] }) := by
  simp only [Cluster.Update, hfault, hfind]

theorem Cluster.StatusUpdate_of_found (c : Cluster) (obj x : Nginx)
    (hfault : c.faults.StatusUpdate = none)
    (hfind : c.findNginx obj.ObjectMeta.key = some x) :
    c.StatusUpdate obj =
      (none, { c with
               nginxes :=
                 c.nginxes.map
                   (fun y => if y.ObjectMeta.key == obj.ObjectMeta.key then
                               { y with Status := obj.Status }
                             else y),
               log := c.log ++ [.statusUpdate obj] }) := by
  simp only [Cluster.StatusUpdate, hfault, hfind]

theorem Cluster.StatusUpdate_log (c : Cluster) (obj : Nginx) :
    ∃ tail : List Write,
      (c.StatusUpdate obj).2.log = c.log ++ tail ∧ (∀ w ∈ tail, w.isChild = false) ∧
      (c.StatusUpdate obj).2.deployments = c.deployments := by
  cases hsu : c.StatusUpdate obj with
  | mk oe c1 =>
    cases oe with
    | none =>
      obtain ⟨_, _, hc1⟩ := Cluster.StatusUpdate_ok hsu
      simp only
      rw [hc1]
      exact ⟨[.statusUpdate obj], rfl, by simp [Write.isChild], rfl⟩
    | some e =>
      have hc1 := Cluster.StatusUpdate_error hsu
      simp only
      rw [hc1]
      exact ⟨[], by simp, by simp, rfl⟩

theorem Reconcile_after_child (scheme : Scheme) (now : Time) (c c1 : Cluster)
    (req : NamespacedName) (nginx : Nginx) (dep cd : Deployment)
    (hn : c.GetNginx req = .ok nginx)
    (hs : SetControllerReference nginx (deploy nginx) scheme = (none, dep))
    (hrd : reconcileDeployment c dep = ((some cd, none), c1)) :
    ∃ tail : List Write,
      (Reconcile scheme now c req).2.log = c1.log ++ tail ∧
      (∀ w ∈ tail, w.isChild = false) ∧
      (Reconcile scheme now c req).2.deployments = c1.deployments := by
  rw [Reconcile_child_ok scheme now c c1 req nginx dep cd hn hs hrd]
  split
  · exact ⟨[], by simp, by simp, rfl⟩
  · exact Cluster.StatusUpdate_log c1 _

theorem labels_lookup_other (nginx : Nginx) (v1 k : String)
    (hk : k ≠ "app.kubernetes.io/version") :
    List.lookup k (labels nginx)
      = List.lookup k (labels { nginx with Spec := { nginx.Spec with Version := v1 } }) := by
  have hb : (k == "app.kubernetes.io/version") = false := by simpa using hk
  simp only [labels, List.lookup, hb]

/-- C3, as the spec states it, fails: after the version of `web` changes from
"1.25" to "1.26" the pass makes one update of the child, and the spec it writes
differs from the previous spec in the image and also in the labels of the
selector and of the pod template, which carry the version. -/
theorem version_change_rewrites_labels :
    ((Reconcile managerScheme 7
        (Cluster.ofObjects [webNginx "1.26"] [webChild "1.25"]) webKey).2.log.filter
      Write.isChild)
      = [.update { webChild "1.25" with Spec := (webChild "1.26").Spec }] ∧
    (webChild "1.26").Spec.Selector ≠ (webChild "1.25").Spec.Selector ∧
    selectorDeepEqual (webChild "1.26").Spec.Selector (webChild "1.25").Spec.Selector
      = false ∧
    mapDeepEqual (webChild "1.26").Spec.Template.Labels (webChild "1.25").Spec.Template.Labels
      = false ∧
    List.lookup "app.kubernetes.io/version" (webChild "1.26").Spec.Template.Labels
      = some "1.26" ∧
    List.lookup "app.kubernetes.io/version" (webChild "1.25").Spec.Template.Labels
      = some "1.25" := by
  decide

/-- C3, amended: when the stored child has the spec computed for version `v1`
and the Nginx object now has another version, the pass makes exactly one write
to the child, an update.  The updated child keeps its metadata and status; its
spec keeps the replica count and the remaining fields, takes the image "nginx:"
followed by the new version in its container, and takes the labels of the new
version in the selector and in the pod template, which differ from the previous
labels in the value of the version label only. -/
theorem Reconcile_version_change (scheme : Scheme) (now : Time) (c : Cluster)
    (req : NamespacedName) (nginx : Nginx) (dep cur : Deployment) (v1 : String)
    (hn : c.GetNginx req = .ok nginx)
    (hv : v1 ≠ nginx.Spec.Version)
    (hs : SetControllerReference nginx (deploy nginx) scheme = (none, dep))
    (hget : c.GetDeployment dep.ObjectMeta.key = .ok cur)
    (hcur : cur.Spec = (deploy { nginx with Spec := { nginx.Spec with Version := v1 } }).Spec)
    (hupd : c.faults.Update = none) :
    ∃ (written : Deployment) (tail : List Write),
      (Reconcile scheme now c req).2.log = c.log ++ .update written :: tail ∧
      (∀ w ∈ tail, w.isChild = false) ∧
      written.ObjectMeta = cur.ObjectMeta ∧
      written.Status = cur.Status ∧
      written.Spec.Replicas = cur.Spec.Replicas ∧
      written.Spec.Others = cur.Spec.Others ∧
      written.Spec.Selector
        = cur.Spec.Selector.map (fun sel => { sel with MatchLabels := labels nginx }) ∧
      written.Spec.Template.Labels = labels nginx ∧
      written.Spec.Template.Spec
        = { cur.Spec.Template.Spec with
            Containers := cur.Spec.Template.Spec.Containers.map
              (fun ct => { ct with Image := "nginx:" ++ nginx.Spec.Version }) } ∧
      (∀ k : String, k ≠ "app.kubernetes.io/version" →
        List.lookup k (labels nginx) = List.lookup k cur.Spec.Template.Labels) := by
  obtain ⟨hdspec, _, _⟩ := SetControllerReference_ok nginx (deploy nginx) dep scheme hs
  obtain ⟨hckey, hfind⟩ := Cluster.GetDeployment_ok_key hget
  have hrep : cur.Spec.Replicas = none := by rw [hcur]; rfl
  have hkeep : keepReplicas cur dep = dep := by
    unfold keepReplicas
    rw [hrep]
    rfl
  have hde : DeepEqual dep.Spec cur.Spec = false := by
    cases hd : DeepEqual dep.Spec cur.Spec with
    | false => rfl
    | true =>
      have ht := DeepEqual_template _ _ hd
      rw [hdspec, hcur] at ht
      simp only [deploy, PodSpec.mk.injEq, List.cons.injEq, Container.mk.injEq, and_true,
        true_and] at ht
      exact absurd (string_append_left_cancel _ _ _ ht).symm hv
  have hfind2 : c.findDeployment
      ({ cur with Spec := dep.Spec } : Deployment).ObjectMeta.key = some cur := by
    show c.findDeployment cur.ObjectMeta.key = some cur
    rw [hckey]
    exact hfind
  have hu := Cluster.Update_of_found c { cur with Spec := dep.Spec } cur hupd hfind2
  have hrd := reconcileDeployment_found c dep cur hget
  rw [hkeep, hde] at hrd
  simp only [Bool.false_eq_true, if_false, hu] at hrd
  obtain ⟨tail, hlog, htail, _⟩ :=
    Reconcile_after_child scheme now c _ req nginx dep _ hn hs hrd
  refine ⟨{ cur with Spec := dep.Spec }, tail, ?_, htail, rfl, rfl, ?_, ?_, ?_, ?_, ?_, ?_⟩
  · rw [hlog]
    simp
  · show dep.Spec.Replicas = cur.Spec.Replicas
    rw [hdspec, hcur]
    rfl
  · show dep.Spec.Others = cur.Spec.Others
    rw [hdspec, hcur]
    rfl
  · show dep.Spec.Selector = _
    rw [hdspec, hcur]
    rfl
  · show dep.Spec.Template.Labels = _
    rw [hdspec]
    rfl
  · show dep.Spec.Template.Spec = _
    rw [hdspec, hcur]
    rfl
  · intro k hk
    rw [hcur]
    exact labels_lookup_other nginx v1 k hk

/-- Witness of the amended C3: the version of `web` changes from "1.25" to
"1.26" while the child built for "1.25" is stored. -/
theorem Reconcile_version_change_witness :
    ∃ (written : Deployment) (tail : List Write),
      (Reconcile managerScheme 7
          (Cluster.ofObjects [webNginx "1.26"] [webChild "1.25"]) webKey).2.log
        = (Cluster.ofObjects [webNginx "1.26"] [webChild "1.25"]).log
            ++ .update written :: tail ∧
      (∀ w ∈ tail, w.isChild = false) ∧
      written.ObjectMeta = (webChild "1.25").ObjectMeta ∧
      written.Spec.Replicas = (webChild "1.25").Spec.Replicas ∧
      written.Spec.Template.Labels = labels (webNginx "1.26") := by
  obtain ⟨written, tail, hlog, htail, hmeta, _, hrep, _, _, hlab, _⟩ :=
    Reconcile_version_change managerScheme 7
      (Cluster.ofObjects [webNginx "1.26"] [webChild "1.25"]) webKey (webNginx "1.26")
      (webChild "1.26") (webChild "1.25") "1.25" rfl (by decide) rfl rfl rfl rfl
  exact ⟨written, tail, hlog, htail, hmeta, hrep, hlab⟩

theorem no_status_write_in_child_writes (l final ws1 ws : List Write) (n : Nginx)
    (h1 : final = l ++ ws1) (h2 : final = l ++ ws ++ [.statusUpdate n])
    (hall : ∀ w ∈ ws1, w.isChild = true) : False := by
  rw [h1, List.append_assoc] at h2
  have h3 := List.append_cancel_left h2
  have hm : Write.statusUpdate n ∈ ws1 := by
    rw [h3]
    simp
  have hc := hall _ hm
  simp [Write.isChild] at hc

theorem withStatus_again (now1 now2 : Time) (nginx : Nginx) (a : Bool) :
    (withStatus now2 { nginx with Status := (withStatus now1 nginx a).Status } a).Status
      = (withStatus now1 nginx a).Status := by
  cases a <;> simp [withStatus, SetStatusCondition_again]

theorem map_status_again (k : NamespacedName) (S : NginxStatus) (l : List Nginx) :
    (l.map (fun y => if y.ObjectMeta.key == k then { y with Status := S } else y)).map
        (fun y => if y.ObjectMeta.key == k then { y with Status := S } else y)
      = l.map (fun y => if y.ObjectMeta.key == k then { y with Status := S } else y) := by
  rw [List.map_map]
  apply List.map_congr_left
  intro y _
  by_cases hy : y.ObjectMeta.key = k
  · simp [hy]
  · simp [hy]

theorem Reconcile_again (scheme : Scheme) (now1 now2 : Time) (c c1 c2 : Cluster)
    (req : NamespacedName) (nginx : Nginx) (dep cd : Deployment)
    (hfetch : c.faults.GetDeployment = none)
    (hn : c.GetNginx req = .ok nginx)
    (hs : SetControllerReference nginx (deploy nginx) scheme = (none, dep))
    (hrd : reconcileDeployment c dep = ((some cd, none), c1))
    (hgen : ¬ (cd.Status.ObservedGeneration != cd.ObjectMeta.Generation) = true)
    (hsu : c1.StatusUpdate (withStatus now1 nginx (available cd)) = (none, c2)) :
    c2.findNginx req
      = some { nginx with Status := (withStatus now1 nginx (available cd)).Status } ∧
    (withStatus now2 { nginx with Status := (withStatus now1 nginx (available cd)).Status }
        (available cd)).Status
      = (withStatus now1 nginx (available cd)).Status ∧
    Reconcile scheme now2 c2 req
      = (({ Requeue := false, RequeueAfter := 0 }, none),
         { c2 with
           log := c2.log ++
             [.statusUpdate
               (withStatus now2
                 { nginx with Status := (withStatus now1 nginx (available cd)).Status }
                 (available cd))] }) := by
  obtain ⟨_, hsufault, hc2⟩ := Cluster.StatusUpdate_ok hsu
  obtain ⟨hnkey, hnfind, hnfault⟩ := Cluster.GetNginx_ok_key hn
  have hframe := reconcileDeployment_frame c dep
  rw [hrd] at hframe
  obtain ⟨hnx, hfl, _⟩ := hframe
  simp only at hnx hfl
  have hkA : (withStatus now1 nginx (available cd)).ObjectMeta.key = req := by
    rw [(withStatus_meta now1 nginx _).1]
    exact hnkey
  have hfind1 : c1.findNginx (withStatus now1 nginx (available cd)).ObjectMeta.key
      = some nginx := by
    rw [hkA]
    unfold Cluster.findNginx at hnfind ⊢
    rw [hnx]
    exact hnfind
  have hfind2 : c2.findNginx req
      = some { nginx with Status := (withStatus now1 nginx (available cd)).Status } := by
    have h := Cluster.findNginx_after_statusUpdate c1 (withStatus now1 nginx (available cd))
      nginx (c1.log ++ [.statusUpdate (withStatus now1 nginx (available cd))]) hfind1
    rw [← hc2, hkA] at h
    exact h
  have hfaults2 : c2.faults = c.faults := by
    rw [hc2]
    exact hfl
  have hget2 : c2.GetNginx req
      = .ok { nginx with Status := (withStatus now1 nginx (available cd)).Status } := by
    simp only [Cluster.GetNginx, hfaults2, hnfault, hfind2]
  have hok : (reconcileDeployment c dep).1.2 = none := by rw [hrd]
  obtain ⟨d1, hres, hfd, hde, _⟩ := reconcileDeployment_converged c dep hfetch hok
  rw [hrd] at hres hfd
  simp only [Option.some.injEq] at hres hfd
  subst hres
  have hfd2 : c2.findDeployment dep.ObjectMeta.key = some cd := by
    rw [hc2]
    exact hfd
  have hfetch2 : c2.faults.GetDeployment = none := by
    rw [hfaults2]
    exact hfetch
  have hrd2 := reconcileDeployment_again c2 dep cd hfetch2 hfd2 hde
  have hrec2 := Reconcile_child_ok scheme now2 c2 c2 req
    { nginx with Status := (withStatus now1 nginx (available cd)).Status } dep cd hget2 hs hrd2
  rw [if_neg hgen] at hrec2
  have hstB := withStatus_again now1 now2 nginx (available cd)
  have hkB : (withStatus now2
      { nginx with Status := (withStatus now1 nginx (available cd)).Status }
      (available cd)).ObjectMeta.key = req := by
    rw [(withStatus_meta now2 _ _).1]
    exact hnkey
  have hsuf2 : c2.faults.StatusUpdate = none := by
    rw [hfaults2, ← hfl]
    exact hsufault
  have hsu2 := Cluster.StatusUpdate_of_found c2
    (withStatus now2 { nginx with Status := (withStatus now1 nginx (available cd)).Status }
      (available cd))
    { nginx with Status := (withStatus now1 nginx (available cd)).Status } hsuf2
    (by rw [hkB]; exact hfind2)
  have hc2n : c2.nginxes
      = c1.nginxes.map
          (fun y => if y.ObjectMeta.key == req then
                      { y with Status := (withStatus now1 nginx (available cd)).Status }
                    else y) := by
    rw [hc2, hkA]
  have hmap : c2.nginxes.map
      (fun y => if y.ObjectMeta.key == req then
                  { y with Status := (withStatus now1 nginx (available cd)).Status }
                else y) = c2.nginxes := by
    rw [hc2n]
    exact map_status_again req _ c1.nginxes
  rw [hkB, hstB, hmap] at hsu2
  rw [hsu2] at hrec2
  exact ⟨hfind2, hstB, hrec2⟩

/-- C8: when a pass of `Reconcile` has written status (on a store whose child
fetch reflects the store), that pass returned no error, and a second pass right
after it, at any later clock, returns no error, leaves the stored Deployments
and Nginx objects as they are, and makes exactly one write: a status update
whose status equals the status already stored for the object. -/
theorem Reconcile_idempotent (scheme : Scheme) (now1 now2 : Time) (c : Cluster)
    (req : NamespacedName) (ws : List Write) (n1 : Nginx)
    (hfetch : c.faults.GetDeployment = none)
    (hwrote : (Reconcile scheme now1 c req).2.log = c.log ++ ws ++ [.statusUpdate n1]) :
    (Reconcile scheme now1 c req).1.2 = none ∧
    ∃ stored n2 : Nginx,
      (Reconcile scheme now1 c req).2.findNginx req = some stored ∧
      n2.Status = stored.Status ∧
      Reconcile scheme now2 (Reconcile scheme now1 c req).2 req
        = (({ Requeue := false, RequeueAfter := 0 }, none),
           { (Reconcile scheme now1 c req).2 with
             log := (Reconcile scheme now1 c req).2.log ++ [.statusUpdate n2] }) := by
  cases hn : c.GetNginx req with
  | error e =>
    rw [Reconcile_fetch_error scheme now1 c req e hn] at hwrote
    exact (no_status_write_in_child_writes c.log c.log [] ws n1 (by simp) hwrote
      (by simp)).elim
  | ok nginx =>
    cases hs : SetControllerReference nginx (deploy nginx) scheme with
    | mk oe dep =>
      cases oe with
      | some e =>
        rw [Reconcile_ownerref_error scheme now1 c req nginx e dep hn hs] at hwrote
        exact (no_status_write_in_child_writes c.log c.log [] ws n1 (by simp) hwrote
          (by simp)).elim
      | none =>
        have hframe := reconcileDeployment_frame c dep
        cases hrd : reconcileDeployment c dep with
        | mk r c1 =>
          obtain ⟨x, oe2⟩ := r
          rw [hrd] at hframe
          obtain ⟨_, _, ws1, hlog1, hws1⟩ := hframe
          simp only at hlog1
          cases oe2 with
          | some e =>
            rw [Reconcile_child_error scheme now1 c c1 req nginx dep x e hn hs hrd] at hwrote
            exact (no_status_write_in_child_writes c.log c1.log ws1 ws n1 hlog1 hwrote
              hws1).elim
          | none =>
            have hsome := reconcileDeployment_ok_some c dep (by rw [hrd])
            rw [hrd] at hsome
            cases x with
            | none => exact absurd rfl hsome
            | some cd =>
              have hrec := Reconcile_child_ok scheme now1 c c1 req nginx dep cd hn hs hrd
              by_cases hlag :
                  (cd.Status.ObservedGeneration != cd.ObjectMeta.Generation) = true
              · rw [if_pos hlag] at hrec
                rw [hrec] at hwrote
                exact (no_status_write_in_child_writes c.log c1.log ws1 ws n1 hlog1 hwrote
                  hws1).elim
              · rw [if_neg hlag] at hrec
                cases hsu : c1.StatusUpdate (withStatus now1 nginx (available cd)) with
                | mk oe3 c2 =>
                  rw [hsu] at hrec
                  cases oe3 with
                  | some e =>
                    have hc2 := Cluster.StatusUpdate_error hsu
                    rw [hrec, hc2] at hwrote
                    exact (no_status_write_in_child_writes c.log c1.log ws1 ws n1 hlog1
                      hwrote hws1).elim
                  | none =>
                    obtain ⟨hfind2, hst, hrec2⟩ :=
                      Reconcile_again scheme now1 now2 c c1 c2 req nginx dep cd hfetch hn hs
                        hrd hlag hsu
                    rw [hrec]
                    exact ⟨rfl, _, _, hfind2, hst, hrec2⟩

/-- Witness of C8: `web` of version "1.25" with no child in the store.  The
first pass creates the child with image "nginx:1.25" and writes status; the
second pass writes status again, the same, and does not touch the child. -/
theorem Reconcile_idempotent_witness :
    ((Reconcile managerScheme 7 (Cluster.ofObjects [webNginx "1.25"] []) webKey).1.2 = none ∧
     ∃ stored n2 : Nginx,
      (Reconcile managerScheme 7
          (Cluster.ofObjects [webNginx "1.25"] []) webKey).2.findNginx webKey = some stored ∧
      n2.Status = stored.Status ∧
      Reconcile managerScheme 9
          (Reconcile managerScheme 7 (Cluster.ofObjects [webNginx "1.25"] []) webKey).2 webKey
        = (({ Requeue := false, RequeueAfter := 0 }, none),
           { (Reconcile managerScheme 7 (Cluster.ofObjects [webNginx "1.25"] []) webKey).2 with
             log := (Reconcile managerScheme 7
                      (Cluster.ofObjects [webNginx "1.25"] []) webKey).2.log
                    ++ [.statusUpdate n2] })) ∧
    ((Reconcile managerScheme 9
        (Reconcile managerScheme 7 (Cluster.ofObjects [webNginx "1.25"] []) webKey).2
        webKey).2.log.filter Write.isChild) = [.create (webChild "1.25")] ∧
    (webChild "1.25").Spec.Template.Spec.Containers.map (fun ct => ct.Image)
      = ["nginx:1.25"] :=
  ⟨Reconcile_idempotent managerScheme 7 9 (Cluster.ofObjects [webNginx "1.25"] []) webKey
      [.create (webChild "1.25")] (withStatus 7 (webNginx "1.25") false) rfl (by decide),
   by decide, by decide⟩

end ExampleOperator
